import Mathlib

/-!
Verification development for the Prague real-estate preprocessing pipeline
(`data_preprocessing.py`).  The Python code is shallowly embedded: Python
objects become the inductive `PyVal`, pandas rows become association lists
from column names to `PyVal`, a DataFrame becomes a column list plus a row
list, floats become real numbers, pandas missing values (NaN/None) become
`PyVal.none`, and Python exceptions become `Except` errors.

Modelling notes (each is flagged again at its definition):
* `ast.literal_eval` is library code outside the repository; `safe_eval` is
  therefore parameterised by an arbitrary evaluator `le : PyVal → Except Unit
  PyVal` (`.error` models a raised `ValueError`/`SyntaxError`), and all
  theorems quantify over `le`.
* `Real.sqrt` and `Real.arcsin` are total in Mathlib; `math.sqrt`/`math.asin`
  raise outside their domains, which is unreachable for geographic
  coordinates (|lat| ≤ 90°).
* `str.lower` is modelled for the ASCII range plus the Czech capital letters
  with diacritics, the only alphabet the markers use.
-/

/-- Python values as produced by `ast.literal_eval` and stored in DataFrame
cells.  `PyVal.none` doubles as pandas' missing value (`None`/`NaN`): the
code only ever tests missingness via `pd.isna`, which is true for both. -/
inductive PyVal where
  | none : PyVal
  | bool (b : Bool) : PyVal
  | int (n : ℤ) : PyVal
  | real (r : ℝ) : PyVal
  | str (s : String) : PyVal
  | list (xs : List PyVal) : PyVal
  | dict (kvs : List (PyVal × PyVal)) : PyVal

/-- Python truthiness (`if x:`). -/
noncomputable def truthy : PyVal → Bool
  | .none => false
  | .bool b => b
  | .int n => decide (n ≠ 0)
  | .real r => decide (r ≠ 0)
  | .str s => decide (s ≠ "")
  | .list xs => !xs.isEmpty
  | .dict kvs => !kvs.isEmpty

/-- `pd.isna` on a cell value: true exactly for the missing value. -/
def cellNA : PyVal → Bool
  | .none => true
  | _ => false

/-- Python `s == v` where `s` is a string literal and `v` an arbitrary value
(cross-type equality is `False`). -/
def pyEqStr (s : String) : PyVal → Bool
  | .str t => s = t
  | _ => false

/-- `d.get(k)` for a dict value (`None` when the key is absent).  The code
only calls `.get` on values already known to be dicts; for uniformity the
non-dict branch returns the missing value. -/
def getItem (v : PyVal) (k : String) : PyVal :=
  match v with
  | .dict kvs => ((kvs.find? fun kv => pyEqStr k kv.1).map Prod.snd).getD .none
  | _ => .none

/-- Whether the character list `pre` is an initial segment of `l`. -/
def charsHasPre : List Char → List Char → Bool
  | [], _ => true
  | _ :: _, [] => false
  | a :: as, b :: bs => a = b && charsHasPre as bs

/-- Whether `needle` occurs as a contiguous sublist of `hay`. -/
def charsHasSub (needle : List Char) : List Char → Bool
  | [] => charsHasPre needle []
  | c :: rest => charsHasPre needle (c :: rest) || charsHasSub needle rest

/-- Python `needle in hay` for strings (substring test). -/
def strHasSub (hay needle : String) : Bool :=
  charsHasSub needle.data hay.data

/-- Python `s.startswith(pre)`. -/
def strStarts (s pre : String) : Bool :=
  charsHasPre pre.data s.data

/-- Python `item in v` (`TypeError` for non-container, non-string values:
membership of a string in a string is a substring test, in a list it is
element equality, in a dict it is key equality). -/
def pyIn (needle : String) : PyVal → Except Unit Bool
  | .str s => .ok (strHasSub s needle)
  | .list xs => .ok (xs.any (pyEqStr needle))
  | .dict kvs => .ok (kvs.any fun kv => pyEqStr needle kv.1)
  | _ => .error ()

/-- `safe_eval`: `ast.literal_eval` wrapped so that a raised
`ValueError`/`SyntaxError` becomes `None`.  The evaluator `le` is a
parameter because `literal_eval` is library code outside the repository. -/
def safe_eval (le : PyVal → Except Unit PyVal) (x : PyVal) : Option PyVal :=
  match le x with
  | .ok v => some v
  | .error _ => none

/-- The ordered substring-label → attribute-key table of `extract_details`
(the `if`/`elif` chain, in source order). -/
def detailLabels : List (String × String) :=
  [("Užitná ploch", "usable_area"),
   ("Celková plocha", "total_area"),
   ("Podlaží", "floor"),
   ("Stavba", "building_type"),
   ("Stav objektu", "building_condition"),
   ("Vlastnictví", "ownership"),
   ("Terasa", "terrace"),
   ("Výtah", "elevator")]

/-- First label (in source order) whose substring occurs in `name`; mirrors
the `elif` chain, including its short-circuit evaluation (a `TypeError`
raised by an earlier membership test aborts the whole chain). -/
def firstLabel (name : PyVal) : List (String × String) → Except Unit (Option String)
  | [] => .ok Option.none
  | (lab, key) :: rest => do
    let b ← pyIn lab name
    if b then pure (some key) else firstLabel name rest

/-- Association-list lookup by string key. -/
def lookupAssoc (m : List (String × PyVal)) (k : String) : Option PyVal :=
  ((m.find? fun kv => kv.1 = k).map Prod.snd)

/-- Python dict assignment `m[k] = v`: replaces the value at an existing key
in place, otherwise appends. -/
def updAssoc : List (String × PyVal) → String → PyVal → List (String × PyVal)
  | [], k, v => [(k, v)]
  | (k', v') :: rest, k, v =>
    if k' = k then (k, v) :: rest else (k', v') :: updAssoc rest k v

/-- One iteration of the `for item in details_list` loop of
`extract_details`: non-dict items and items with a falsy `name` are skipped,
otherwise the first matching label's key receives the item's `value`. -/
noncomputable def detailsStep (m : List (String × PyVal)) (item : PyVal) :
    Except Unit (List (String × PyVal)) :=
  match item with
  | .dict _ =>
    if truthy (getItem item "name") then do
      let k? ← firstLabel (getItem item "name") detailLabels
      pure (match k? with
        | some k => updAssoc m k (getItem item "value")
        | Option.none => m)
    else pure m
  | _ => pure m

/-- `extract_details`: evaluate the detail blob; a result that is not a list
yields the empty mapping, otherwise the items are folded through
`detailsStep`. -/
noncomputable def extract_details (le : PyVal → Except Unit PyVal) (detail_str : PyVal) :
    Except Unit (List (String × PyVal)) :=
  match safe_eval le detail_str with
  | some (.list items) => items.foldlM detailsStep []
  | _ => .ok []

/-- `str.lower` for one character, modelled on ASCII plus the Czech capital
letters with diacritics (the only alphabet the floor markers use; other
characters are returned unchanged). -/
def charLower (c : Char) : Char :=
  if 'A' ≤ c ∧ c ≤ 'Z' then Char.ofNat (c.toNat + 32)
  else if c = 'Á' then 'á' else if c = 'Č' then 'č' else if c = 'Ď' then 'ď'
  else if c = 'É' then 'é' else if c = 'Ě' then 'ě' else if c = 'Í' then 'í'
  else if c = 'Ň' then 'ň' else if c = 'Ó' then 'ó' else if c = 'Ř' then 'ř'
  else if c = 'Š' then 'š' else if c = 'Ť' then 'ť' else if c = 'Ú' then 'ú'
  else if c = 'Ů' then 'ů' else if c = 'Ý' then 'ý' else if c = 'Ž' then 'ž'
  else c

/-- `str.lower` on a whole string. -/
def strLower (s : String) : String :=
  String.mk (s.data.map charLower)

/-- Numeric value of a digit run. -/
def digitsVal (cs : List Char) : ℕ :=
  cs.foldl (fun a c => a * 10 + (c.toNat - 48)) 0

/-- `re.search(r'(-?\d+)', s)` followed by `int(...)`: the leftmost match of
an optional minus sign directly followed by a maximal digit run. -/
def findInt : List Char → Option ℤ
  | [] => Option.none
  | c :: rest =>
    if c = '-' then
      match rest with
      | d :: _ =>
        if d.isDigit then some (-(digitsVal (rest.takeWhile Char.isDigit) : ℤ))
        else findInt rest
      | [] => Option.none
    else if c.isDigit then
      some ((digitsVal ((c :: rest).takeWhile Char.isDigit) : ℤ))
    else findInt rest

/-- `extract_floor_num`: non-strings map to 0; otherwise the lower-cased
text is checked for the ground-floor marker (→ 0), then the basement marker
(→ -1), then the first signed integer substring, defaulting to 0. -/
def extract_floor_num (floor_str : PyVal) : ℤ :=
  match floor_str with
  | .str s =>
    if strHasSub (strLower s) "přízemí" then 0
    else if strHasSub (strLower s) "suterén" then -1
    else
      match findInt (strLower s).data with
      | some n => n
      | Option.none => 0
  | _ => 0

/-- A pandas row: an association list from column labels to cell values.
A label absent from the row is read as the missing value, matching how the
pipeline's rows behave: the two unconditional raw-column reads (`locality`,
`detail`) are modelled with the `KeyError` guard the source's `df[col]`
carries, and every other column access happens after the corresponding
assignment or behind a `columns` membership test. -/
abbrev Row : Type := List (String × PyVal)

/-- Reading a cell (`row[label]`); absent labels read as missing. -/
def getCell (r : Row) (k : String) : PyVal :=
  (lookupAssoc r k).getD .none

/-- Writing a cell: replaces the value at every occurrence of an existing
label (pandas assigns to all duplicate labels at once), otherwise appends a
new column at the end. -/
def setCell (r : Row) (k : String) (v : PyVal) : Row :=
  if r.any (fun kv => kv.1 = k) then
    r.map (fun kv => if kv.1 = k then (k, v) else kv)
  else r ++ [(k, v)]

/-- One row of `metro_stations.csv`: line identifier, station name and
coordinates in degrees. -/
structure Station where
  line : String
  name : String
  lat : ℝ
  lng : ℝ

/-- `math.radians`. -/
noncomputable def rad (x : ℝ) : ℝ := x * (Real.pi / 180)

/-- `haversine(lon1, lat1, lon2, lat2)`: great-circle distance in meters.
`Real.sqrt`/`Real.arcsin` are total where `math.sqrt`/`math.asin` raise,
which is unreachable for geographic coordinates (|lat| ≤ 90°). -/
noncomputable def haversine (lon1 lat1 lon2 lat2 : ℝ) : ℝ :=
  2 * Real.arcsin (Real.sqrt
    (Real.sin ((rad lat2 - rad lat1) / 2) ^ 2 +
      Real.cos (rad lat1) * Real.cos (rad lat2) *
        Real.sin ((rad lon2 - rad lon1) / 2) ^ 2)) * 6371000

/-- The mutable `results` dictionary of `get_metro_distances`. -/
structure DistState where
  dist_A : ℝ
  dist_B : ℝ
  dist_C : ℝ
  nearest_name : Option String
  global_min_dist : ℝ

/-- Initial `results` value: every tracked distance starts at the sentinel
`99999`, the nearest name at `None`. -/
def initDistState : DistState :=
  ⟨99999, 99999, 99999, Option.none, 99999⟩

/-- The `if col_name in results` update: only lines A, B, C have a tracked
`dist_{line}` entry, and it is lowered only on a strictly smaller distance. -/
noncomputable def lineUpd (dist : ℝ) (st : DistState) (line : String) : DistState :=
  if line = "A" then (if dist < st.dist_A then { st with dist_A := dist } else st)
  else if line = "B" then (if dist < st.dist_B then { st with dist_B := dist } else st)
  else if line = "C" then (if dist < st.dist_C then { st with dist_C := dist } else st)
  else st

/-- The global-minimum update: a strictly smaller distance replaces both the
tracked minimum and the nearest station name. -/
noncomputable def globalUpd (dist : ℝ) (name : String) (st : DistState) : DistState :=
  if dist < st.global_min_dist then
    { st with global_min_dist := dist, nearest_name := some name }
  else st

/-- One iteration of the `for _, station in metro_df.iterrows()` loop. -/
noncomputable def metroStep (flat_lat flat_lon : ℝ) (st : DistState) (station : Station) :
    DistState :=
  globalUpd (haversine flat_lon flat_lat station.lng station.lat) station.name
    (lineUpd (haversine flat_lon flat_lat station.lng station.lat) st station.line)

/-- Numeric reading of a coordinate cell.  In the pipeline these cells are
always floats or missing; a non-numeric cell would make `math.radians`
raise in the source and is not modelled. -/
def asR : PyVal → ℝ
  | .real r => r
  | .int n => (n : ℝ)
  | _ => 0

/-- The `pd.Series` returned by `get_metro_distances` (`NaN` ↦ `none`). -/
structure MetroResult where
  dist_A : Option ℝ
  dist_B : Option ℝ
  dist_C : Option ℝ
  nearest_name : Option String

/-- `get_metro_distances(row, metro_df)`: missing coordinates short-circuit
to a fully missing result; otherwise the station list is scanned with
`metroStep` starting from the sentinel state. -/
noncomputable def get_metro_distances (row : Row) (metro_df : List Station) : MetroResult :=
  if cellNA (getCell row "latitude") || cellNA (getCell row "longitude") then
    ⟨Option.none, Option.none, Option.none, Option.none⟩
  else
    let st := metro_df.foldl
      (metroStep (asR (getCell row "latitude")) (asR (getCell row "longitude"))) initDistState
    ⟨some st.dist_A, some st.dist_B, some st.dist_C, st.nearest_name⟩

/-- The per-line component of a `MetroResult`, for stating per-line facts. -/
def lineDist (res : MetroResult) (l : String) : Option ℝ :=
  if l = "A" then res.dist_A
  else if l = "B" then res.dist_B
  else if l = "C" then res.dist_C
  else Option.none

/-- A DataFrame: the column index plus the row list. -/
structure Df where
  cols : List String
  rows : List Row

/-- `df.drop(columns=cs, errors='ignore')`. -/
def dropColumns (df : Df) (cs : List String) : Df :=
  ⟨df.cols.filter (fun c => !cs.contains c),
   df.rows.map (fun r => r.filter (fun kv => !cs.contains kv.1))⟩

/-- `df.dropna(subset=['price_czk'])` followed by `reset_index(drop=True)`. -/
def filterPrice (df : Df) : Df :=
  ⟨df.cols, df.rows.filter (fun r => !cellNA (getCell r "price_czk"))⟩

/-- Column-index effect of an assignment `df[name] = ...`. -/
def ensureCol (cols : List String) (c : String) : List String :=
  if cols.contains c then cols else cols ++ [c]

/-- `df[name] = df.apply(f, axis=1)` for a pure per-row function. -/
def setColumn (df : Df) (name : String) (f : Row → PyVal) : Df :=
  ⟨ensureCol df.cols name, df.rows.map (fun r => setCell r name (f r))⟩

/-- Applying a possibly-raising function to every element in order, the
first raise aborting the whole traversal (how a raising function behaves
under `Series.apply`). -/
def mapME {α β : Type} (f : α → Except Unit β) : List α → Except Unit (List β)
  | [] => .ok []
  | a :: l => do
    let b ← f a
    let bs ← mapME f l
    pure (b :: bs)

/-- `df[name] = df.apply(f, axis=1)` where `f` may raise. -/
noncomputable def setColumnM (df : Df) (name : String) (f : Row → Except Unit PyVal) :
    Except Unit Df := do
  let rows ← mapME (fun r => do pure (setCell r name (← f r))) df.rows
  pure ⟨ensureCol df.cols name, rows⟩

/-- `x.get(k) if isinstance(x, dict) else None`. -/
def dictGetIf (v : PyVal) (k : String) : PyVal :=
  match v with
  | .dict _ => getItem v k
  | _ => .none

/-- The locality-extraction block: `locality_dict`, `city`, `district`,
`lat`, `lon` columns derived from the `locality` blob.  `df['locality']` on a
table without that column raises an uncaught `KeyError`, modelled by the
guard; the four later reads hit the column assigned on the first line. -/
noncomputable def localityStage (le : PyVal → Except Unit PyVal) (df : Df) :
    Except Unit Df :=
  if df.cols.contains "locality" then
    let d1 := setColumn df "locality_dict" (fun r => (safe_eval le (getCell r "locality")).getD .none)
    let d2 := setColumn d1 "city" (fun r => dictGetIf (getCell r "locality_dict") "city")
    let d3 := setColumn d2 "district" (fun r => dictGetIf (getCell r "locality_dict") "district")
    let d4 := setColumn d3 "lat" (fun r => dictGetIf (getCell r "locality_dict") "gps_lat")
    .ok (setColumn d4 "lon" (fun r => dictGetIf (getCell r "locality_dict") "gps_lon"))
  else .error ()

/-- `lambda x: safe_eval(x).get('name') if safe_eval(x) else None`; `.get`
on a truthy non-dict literal raises `AttributeError`. -/
noncomputable def catName (le : PyVal → Except Unit PyVal) (v : PyVal) : Except Unit PyVal :=
  match safe_eval le v with
  | some w =>
    if truthy w then
      match w with
      | .dict _ => .ok (getItem w "name")
      | _ => .error ()
    else .ok .none
  | Option.none => .ok .none

/-- The category-name extraction loop over the three `category_*_cb`
columns, each guarded by a `columns` membership test. -/
noncomputable def categoryStage (le : PyVal → Except Unit PyVal) (df : Df) : Except Unit Df :=
  ["category_main_cb", "category_sub_cb", "category_type_cb"].foldlM
    (fun d c =>
      if d.cols.contains c then setColumnM d c (fun r => catName le (getCell r c))
      else pure d) df

/-- First-occurrence deduplication of a string list. -/
def dedupStr (l : List String) : List String :=
  l.foldl (fun acc s => if acc.contains s then acc else acc ++ [s]) []

/-- Column index of `pd.DataFrame(list_of_dicts)`: the union of the keys in
first-appearance order. -/
def detailColsOf (exs : List (List (String × PyVal))) : List String :=
  dedupStr ((exs.map (fun m => m.map Prod.fst)).flatten)

/-- The detail-extraction block: `extract_details` applied to every row's
`detail` blob, the resulting frame concatenated column-wise (each row gains
every extracted column, missing entries as `NaN`).  `df['detail']` on a
table without that column raises an uncaught `KeyError`, modelled by the
guard. -/
noncomputable def detailsStage (le : PyVal → Except Unit PyVal) (df : Df) : Except Unit Df :=
  if df.cols.contains "detail" then do
    let exs ← mapME (fun r => extract_details le (getCell r "detail")) df.rows
    let dcols := detailColsOf exs
    pure ⟨df.cols ++ dcols,
      (df.rows.zip exs).map
        (fun p => p.1 ++ dcols.map (fun k => (k, (lookupAssoc p.2 k).getD .none)))⟩
  else .error ()

/-- Python `str(v)` for the value shapes that reach the usable-area cleanup
(strings, ints, bools, missing).  Containers never occur in that cell and
are mapped to the empty string. -/
def pyStrOf : PyVal → String
  | .str s => s
  | .int n => toString n
  | .bool b => if b then "True" else "False"
  | .none => "None"
  | _ => ""

/-- `.str.replace(r'[^\d.]', '', regex=True)`: keep digits and dots. -/
def filterDigitsDot (s : String) : String :=
  String.mk (s.data.filter (fun c => c.isDigit || c = '.'))

/-- `float(s)` for a digits-and-dots string (`none` models the raise that
`pd.to_numeric(errors='coerce')` turns into `NaN`). -/
noncomputable def parseFloat? (s : String) : Option ℝ :=
  match s.data.splitOn '.' with
  | [ip] =>
    if ip ≠ [] ∧ ip.all Char.isDigit then some ((digitsVal ip : ℕ) : ℝ) else Option.none
  | [ip, fp] =>
    if ip ++ fp ≠ [] ∧ (ip ++ fp).all Char.isDigit then
      some (((digitsVal ip : ℕ) : ℝ) + ((digitsVal fp : ℕ) : ℝ) / 10 ^ fp.length)
    else Option.none
  | _ => Option.none

/-- `pd.to_numeric(df[c].astype(str).str.replace(r'[^\d.]', ''), errors='coerce')`
on one cell.  A float cell round-trips through its decimal representation;
for the plain decimals occurring as areas this is the identity, which is how
it is modelled. -/
noncomputable def toNumericClean (v : PyVal) : PyVal :=
  match v with
  | .real r => .real r
  | _ =>
    match parseFloat? (filterDigitsDot (pyStrOf v)) with
    | some x => .real x
    | Option.none => .none

/-- The usable-area cleanup, guarded by a `columns` membership test. -/
noncomputable def areaStage (df : Df) : Df :=
  if df.cols.contains "usable_area" then
    setColumn df "usable_area" (fun r => toNumericClean (getCell r "usable_area"))
  else df

/-- The floor-number extraction, guarded by a `columns` membership test. -/
def floorStage (df : Df) : Df :=
  if df.cols.contains "floor" then
    setColumn df "floor_num" (fun r => .int (extract_floor_num (getCell r "floor")))
  else df

/-- `int(float)` truncates toward zero. -/
noncomputable def intTrunc (r : ℝ) : ℤ :=
  if 0 ≤ r then ⌊r⌋ else -⌊-r⌋

/-- `int(s)` for a string (`.error` models the raise). -/
def parseIntStr? (s : String) : Option ℤ :=
  match s.data with
  | '-' :: ds => if ds ≠ [] ∧ ds.all Char.isDigit then some (-(digitsVal ds : ℤ)) else Option.none
  | ds => if ds ≠ [] ∧ ds.all Char.isDigit then some ((digitsVal ds : ℕ) : ℤ) else Option.none

/-- `fillna(0).astype(int)` on one cell. -/
noncomputable def fillIntCell (v : PyVal) : Except Unit PyVal :=
  match v with
  | .none => .ok (.int 0)
  | .bool b => .ok (.int (if b then 1 else 0))
  | .int n => .ok (.int n)
  | .real r => .ok (.int (intTrunc r))
  | .str s =>
    match parseIntStr? s with
    | some n => .ok (.int n)
    | Option.none => .error ()
  | _ => .error ()

/-- The terrace/elevator binarisation loop, each column guarded by a
`columns` membership test. -/
noncomputable def binStage (df : Df) : Except Unit Df :=
  ["terrace", "elevator"].foldlM
    (fun d c =>
      if d.cols.contains c then setColumnM d c (fun r => fillIntCell (getCell r c))
      else pure d) df

/-- Fuel-indexed scanner behind `charsReplace`; the fuel only bounds the
recursion depth (one unit per consumed character) so that the recursion is
structural. -/
def charsReplaceFuel (pat rep : List Char) : ℕ → List Char → List Char
  | 0, l => l
  | n + 1, l =>
    match l with
    | [] => []
    | c :: rest =>
      if pat ≠ [] ∧ charsHasPre pat (c :: rest) then
        rep ++ charsReplaceFuel pat rep n (rest.drop (pat.length - 1))
      else c :: charsReplaceFuel pat rep n rest

/-- `s.replace(pat, rep)` on char lists: every non-overlapping occurrence,
left to right. -/
def charsReplace (pat rep : List Char) (l : List Char) : List Char :=
  charsReplaceFuel pat rep l.length l

/-- `s.replace(pat, rep)` on strings. -/
def strReplaceAll (s pat rep : String) : String :=
  String.mk (charsReplace pat.data rep.data s.data)

/-- `(df[col] <= t).astype(int)` on one cell: pandas comparisons with `NaN`
are `False`.  Non-numeric cells never reach these comparisons in the
source. -/
noncomputable def cellFlagLe (t : ℝ) (v : PyVal) : PyVal :=
  match v with
  | .real r => .int (if r ≤ t then 1 else 0)
  | .int n => .int (if (n : ℝ) ≤ t then 1 else 0)
  | _ => .int 0

/-- The 500 m proximity block: for every `poi_*` column add the renamed
binary column, then drop all the raw `poi_*` columns. -/
noncomputable def poiStage (df : Df) : Df :=
  dropColumns
    ((df.cols.filter (fun c => strStarts c "poi_")).foldl
      (fun d c =>
        setColumn d (strReplaceAll c "poi_" "500m_") (fun r => cellFlagLe 500 (getCell r c)))
      df)
    (df.cols.filter (fun c => strStarts c "poi_"))

/-- Lexicographic comparison of character lists. -/
def charsLe : List Char → List Char → Bool
  | [], _ => true
  | _ :: _, [] => false
  | a :: as, b :: bs => if a = b then charsLe as bs else decide (a < b)

/-- Lexicographic `≤` on strings. -/
def strLe (a b : String) : Bool :=
  charsLe a.data b.data

/-- Insertion into a sorted string list. -/
def insertSorted (x : String) : List String → List String
  | [] => [x]
  | y :: ys => if strLe x y then x :: y :: ys else y :: insertSorted x ys

/-- Insertion sort of a string list. -/
def sortStrs (l : List String) : List String :=
  l.foldr insertSorted []

/-- The non-missing values of a column (the categorical columns only ever
hold strings or missing values). -/
def strValues (rows : List Row) (c : String) : List String :=
  rows.filterMap (fun r =>
    match getCell r c with
    | .str s => some s
    | _ => Option.none)

/-- `pd.get_dummies` category list for one column with `drop_first=True`:
the sorted distinct observed values with the first one removed. -/
def catsFor (rows : List Row) (c : String) : List String :=
  (sortStrs (dedupStr (strValues rows c))).drop 1

/-- Removing a column label from a row. -/
def removeKey (r : Row) (c : String) : Row :=
  r.filter (fun kv => decide (kv.1 ≠ c))

/-- Per-row effect of `pd.get_dummies` on one column: the column is removed
and one indicator per kept category is appended. -/
def dummyRowFn (c : String) (cats : List String) (r : Row) : Row :=
  removeKey r c ++ cats.map (fun v => (c ++ "_" ++ v, PyVal.bool (pyEqStr v (getCell r c))))

/-- `pd.get_dummies(df, columns=catcols, drop_first=True)`. -/
def getDummies (df : Df) (catcols : List String) : Df :=
  let g := catcols.map (fun c => (c, catsFor df.rows c))
  ⟨df.cols.filter (fun c => !catcols.contains c) ++
     (g.map (fun p => p.2.map (fun v => p.1 ++ "_" ++ v))).flatten,
   df.rows.map (fun r => g.foldl (fun r p => dummyRowFn p.1 p.2 r) r)⟩

/-- The fixed renaming of `column_mapping`. -/
def renameCol (c : String) : String :=
  if c = "price_czk" then "price"
  else if c = "lat" then "latitude"
  else if c = "lon" then "longitude"
  else if c = "usable_area" then "area_usable"
  else if c = "terrace" then "has_terrace"
  else if c = "elevator" then "has_elevator"
  else if c = "floor_num" then "floor_number"
  else c

/-- `df.rename(columns=column_mapping)`. -/
def renameStage (df : Df) : Df :=
  ⟨df.cols.map renameCol, df.rows.map (fun r => r.map (fun kv => (renameCol kv.1, kv.2)))⟩

/-- Storing an optional distance back into a cell. -/
def optReal : Option ℝ → PyVal
  | some r => .real r
  | Option.none => .none

/-- Storing an optional station name back into a cell. -/
def optStr : Option String → PyVal
  | some s => .str s
  | Option.none => .none

/-- Per-row effect of the metro-distance assignment: the four result cells
are written, all computed from the original row. -/
noncomputable def metroAssignRow (metro : List Station) (r : Row) : Row :=
  setCell (setCell (setCell (setCell r
    "metro_dist_A" (optReal (get_metro_distances r metro).dist_A))
    "metro_dist_B" (optReal (get_metro_distances r metro).dist_B))
    "metro_dist_C" (optReal (get_metro_distances r metro).dist_C))
    "nearest_station" (optStr (get_metro_distances r metro).nearest_name)

/-- The metro-distance block of the pipeline. -/
noncomputable def metroStage (metro : List Station) (df : Df) : Df :=
  ⟨ensureCol (ensureCol (ensureCol (ensureCol df.cols
      "metro_dist_A") "metro_dist_B") "metro_dist_C") "nearest_station",
   df.rows.map (metroAssignRow metro)⟩

/-- The 1000 m metro proximity block: one binary column per line whose raw
distance column is present; the raw columns are retained. -/
noncomputable def metroFlagStage (df : Df) : Df :=
  ["A", "B", "C"].foldl
    (fun d l =>
      if d.cols.contains ("metro_dist_" ++ l) then
        setColumn d ("1000m_dist_" ++ l) (fun r => cellFlagLe 1000 (getCell r ("metro_dist_" ++ l)))
      else d) df

/-- `cols_to_drop` of `process_raw_data`. -/
def colsToDrop : List String :=
  ["Unnamed: 0", "hash_id", "advert_images", "advert_images_all",
   "premise_logo", "user_id", "premise_id", "price_summary",
   "price_currency_cb", "price_unit_cb", "price_summary_unit_cb",
   "has_matterport_url", "has_video", "advert_name", "premise"]

/-- `cols_to_remove` (the intermediate columns). -/
def colsIntermediate : List String :=
  ["locality", "locality_dict", "detail", "floor", "price",
   "price_czk_m2", "price_summary_czk", "building_condition", "total_area"]

/-- `categorical_cols` of `process_raw_data`. -/
def categoricalCols : List String :=
  ["category_main_cb", "category_sub_cb", "category_type_cb",
   "city", "district", "building_type", "ownership", "condition"]

/-- The typed failures of `process_raw_data`: `FileNotFoundError` naming the
missing file, `ValueError` naming the missing column, and an uncaught
per-cell exception escaping a transform. -/
inductive PErr where
  | fileNotFound (path : String)
  | missingColumn (col : String)
  | typeError

/-- The body of `process_raw_data` after loading and validation, in source
order. -/
noncomputable def pipelineBody (le : PyVal → Except Unit PyVal) (metro : List Station)
    (df0 : Df) : Except Unit Df := do
  let df1 := dropColumns df0 colsToDrop
  let df2 := filterPrice df1
  let df3 ← localityStage le df2
  let df4 ← categoryStage le df3
  let df5 ← detailsStage le df4
  let df6 := areaStage df5
  let df7 := floorStage df6
  let df8 ← binStage df7
  let df9 := dropColumns df8 colsIntermediate
  let df10 := poiStage df9
  let df11 := getDummies df10 (categoricalCols.filter (fun c => df10.cols.contains c))
  let df12 := renameStage df11
  let df13 := metroStage metro df12
  let df14 := metroFlagStage df13
  pure (getDummies df14 ["nearest_station"])

/-- `process_raw_data`: the file system is modelled by the two lookup
functions (`none` = the file does not exist, making `pd.read_csv` raise
`FileNotFoundError`); the returned pair is the final frame together with the
list of files written (`to_csv` runs only at the very end). -/
noncomputable def process_raw_data (raw_data_path metro_path : String)
    (output_path : Option String) (fsRaw : String → Option Df)
    (fsMetro : String → Option (List Station)) (le : PyVal → Except Unit PyVal) :
    Except PErr (Df × List (String × Df)) :=
  match fsRaw raw_data_path with
  | Option.none => .error (.fileNotFound raw_data_path)
  | some df0 =>
    match fsMetro metro_path with
    | Option.none => .error (.fileNotFound metro_path)
    | some metro =>
      if df0.cols.contains "price_czk" then
        match pipelineBody le metro df0 with
        | .ok dfF => .ok (dfF, (output_path.map (fun p => (p, dfF))).toList)
        | .error _ => .error .typeError
      else .error (.missingColumn "price_czk")

/-- The files written by a run (an aborted run writes nothing). -/
def writesOf (res : Except PErr (Df × List (String × Df))) : List (String × Df) :=
  match res with
  | .ok p => p.2
  | .error _ => []

/-- The (label-key, value) pair one loop item of `extract_details` writes,
if any: `none` for skipped items, `.error` when the membership test
raises. -/
noncomputable def itemContrib (item : PyVal) : Except Unit (Option (String × PyVal)) :=
  match item with
  | .dict _ =>
    if truthy (getItem item "name") then do
      let k? ← firstLabel (getItem item "name") detailLabels
      pure (k?.map (fun k => (k, getItem item "value")))
    else pure Option.none
  | _ => pure Option.none

/-- All writes performed by the `extract_details` loop, in order. -/
noncomputable def contribList : List PyVal → Except Unit (List (String × PyVal))
  | [] => .ok []
  | it :: rest => do
    let c ← itemContrib it
    let cs ← contribList rest
    pure (c.toList ++ cs)

/-- Replaying a list of dict writes. -/
def applyContribs (m : List (String × PyVal)) (cs : List (String × PyVal)) :
    List (String × PyVal) :=
  cs.foldl (fun m c => updAssoc m c.1 c.2) m

/-- The global-minimum/nearest-name component of `metroStep`, as a step on
the pair it acts on. -/
noncomputable def gstep (flat_lat flat_lon : ℝ) (p : ℝ × Option String) (s : Station) :
    ℝ × Option String :=
  if haversine flat_lon flat_lat s.lng s.lat < p.1 then
    (haversine flat_lon flat_lat s.lng s.lat, some s.name)
  else p

/-- Values on which Python's `in` test cannot raise. -/
def isContainerOrStr : PyVal → Bool
  | .str _ => true
  | .list _ => true
  | .dict _ => true
  | _ => false

/-- A `name` value that cannot make the `extract_details` loop raise: it is
either falsy (the item is skipped before the membership test) or a value
`in` accepts. -/
def nameSafe (v : PyVal) : Prop :=
  truthy v = false ∨ isContainerOrStr v = true

/-- A 3-row listing table (one row missing its price, with the `locality`
and `detail` columns the pipeline reads unconditionally present and empty)
used to instantiate the orchestrator row-correspondence statement. -/
def C3df0 : Df :=
  ⟨["price_czk", "locality", "detail"],
   [[("price_czk", PyVal.int 1), ("locality", PyVal.none), ("detail", PyVal.none)],
    [("price_czk", PyVal.none), ("locality", PyVal.none), ("detail", PyVal.none)],
    [("price_czk", PyVal.int 2), ("locality", PyVal.none), ("detail", PyVal.none)]]⟩

/-- The frame `process_raw_data` produces from `C3df0` with an empty station
table, no detail/locality blobs and no output path. -/
def C3dfF : Df :=
  ⟨["price", "latitude", "longitude", "metro_dist_A", "metro_dist_B", "metro_dist_C",
    "1000m_dist_A", "1000m_dist_B", "1000m_dist_C"],
   [[("price", PyVal.int 1), ("latitude", PyVal.none), ("longitude", PyVal.none),
     ("metro_dist_A", PyVal.none), ("metro_dist_B", PyVal.none), ("metro_dist_C", PyVal.none),
     ("1000m_dist_A", PyVal.int 0), ("1000m_dist_B", PyVal.int 0), ("1000m_dist_C", PyVal.int 0)],
    [("price", PyVal.int 2), ("latitude", PyVal.none), ("longitude", PyVal.none),
     ("metro_dist_A", PyVal.none), ("metro_dist_B", PyVal.none), ("metro_dist_C", PyVal.none),
     ("1000m_dist_A", PyVal.int 0), ("1000m_dist_B", PyVal.int 0), ("1000m_dist_C", PyVal.int 0)]]⟩

example : extract_floor_num (.str "přízemí") = 0 := by decide
example : extract_floor_num (.str "suterén") = -1 := by decide
example : extract_floor_num (.str "2. patro") = 2 := by decide
example : extract_floor_num (.str "-1. patro") = -1 := by decide
example : extract_floor_num .none = 0 := by decide
example : extract_floor_num (.str "PŘÍZEMÍ") = 0 := by decide
example : extract_floor_num (.str "chodba") = 0 := by decide

/-! ### Generic list and association-list lemmas -/

theorem strContains_iff (cs : List String) (k : String) :
    cs.contains k = true ↔ k ∈ cs := by
  induction cs with
  | nil => simp
  | cons x xs ih => simp [List.contains_cons] at *

theorem strContains_false_iff (cs : List String) (k : String) :
    cs.contains k = false ↔ k ∉ cs := by
  rw [Bool.eq_false_iff, Ne, strContains_iff]

theorem lookupAssoc_cons (kv : String × PyVal) (m : List (String × PyVal)) (k : String) :
    lookupAssoc (kv :: m) k = if kv.1 = k then some kv.2 else lookupAssoc m k := by
  unfold lookupAssoc
  by_cases h : kv.1 = k <;> simp [List.find?_cons, h]

theorem lookupAssoc_eq_none_iff (m : List (String × PyVal)) (k : String) :
    lookupAssoc m k = Option.none ↔ ∀ kv ∈ m, kv.1 ≠ k := by
  unfold lookupAssoc
  rw [Option.map_eq_none', List.find?_eq_none]
  constructor
  · intro h kv hkv
    simpa using h kv hkv
  · intro h kv hkv
    simpa using h kv hkv

theorem lookupAssoc_append (m1 m2 : List (String × PyVal)) (k : String) :
    lookupAssoc (m1 ++ m2) k =
      match lookupAssoc m1 k with
      | some v => some v
      | Option.none => lookupAssoc m2 k := by
  induction m1 with
  | nil => simp [lookupAssoc]
  | cons kv m1 ih =>
    rw [List.cons_append, lookupAssoc_cons, lookupAssoc_cons]
    by_cases h : kv.1 = k <;> simp [h, ih]

theorem getCell_append_ne (r l : Row) (k : String) (h : ∀ kv ∈ l, kv.1 ≠ k) :
    getCell (r ++ l) k = getCell r k := by
  unfold getCell
  rw [lookupAssoc_append]
  rw [(lookupAssoc_eq_none_iff l k).mpr h]
  cases lookupAssoc r k <;> rfl

theorem lookupAssoc_filterKey (r : Row) (q : String → Bool) (k : String) (hk : q k = true) :
    lookupAssoc (r.filter (fun kv => q kv.1)) k = lookupAssoc r k := by
  induction r with
  | nil => rfl
  | cons kv r ih =>
    cases hq : q kv.1 with
    | true =>
      rw [List.filter_cons, if_pos hq, lookupAssoc_cons, lookupAssoc_cons, ih]
    | false =>
      have hne : kv.1 ≠ k := fun he => by rw [he, hk] at hq; cases hq
      rw [List.filter_cons, if_neg (by simp [hq]), lookupAssoc_cons, if_neg hne, ih]

theorem getCell_filterKey (r : Row) (q : String → Bool) (k : String) (hk : q k = true) :
    getCell (r.filter (fun kv => q kv.1)) k = getCell r k := by
  unfold getCell
  rw [lookupAssoc_filterKey r q k hk]

theorem lookupAssoc_updMap_self (r : Row) (k : String) (v : PyVal) :
    lookupAssoc (r.map (fun kv => if kv.1 = k then (k, v) else kv)) k =
      if r.any (fun kv => kv.1 = k) then some v else Option.none := by
  induction r with
  | nil => rfl
  | cons kv r ih =>
    by_cases h : kv.1 = k
    · simp [h, lookupAssoc_cons]
    · rw [List.map_cons, if_neg h, lookupAssoc_cons, if_neg h, ih, List.any_cons,
        decide_eq_false h, Bool.false_or]

theorem lookupAssoc_updMap_ne (r : Row) (k : String) (v : PyVal) (k' : String) (h : k' ≠ k) :
    lookupAssoc (r.map (fun kv => if kv.1 = k then (k, v) else kv)) k' =
      lookupAssoc r k' := by
  induction r with
  | nil => rfl
  | cons kv r ih =>
    by_cases hk : kv.1 = k
    · rw [List.map_cons, if_pos hk, lookupAssoc_cons, lookupAssoc_cons, ih]
      have h1 : ¬ (k = k') := fun he => h he.symm
      have h2 : ¬ (kv.1 = k') := fun he => h (by rw [← he, hk])
      simp [h1, h2]
    · rw [List.map_cons, if_neg hk, lookupAssoc_cons, lookupAssoc_cons, ih]

theorem getCell_setCell_self (r : Row) (k : String) (v : PyVal) :
    getCell (setCell r k v) k = v := by
  unfold setCell getCell
  by_cases h : r.any (fun kv => kv.1 = k)
  · rw [if_pos h, lookupAssoc_updMap_self, if_pos h]; rfl
  · rw [if_neg h, lookupAssoc_append]
    rw [(lookupAssoc_eq_none_iff r k).mpr ?_]
    · simp [lookupAssoc_cons]
    · intro kv hkv he
      exact h (List.any_eq_true.mpr ⟨kv, hkv, by simp [he]⟩)

theorem getCell_setCell_ne (r : Row) (k : String) (v : PyVal) (k' : String) (h : k' ≠ k) :
    getCell (setCell r k v) k' = getCell r k' := by
  unfold setCell getCell
  by_cases hc : r.any (fun kv => kv.1 = k)
  · rw [if_pos hc, lookupAssoc_updMap_ne r k v k' h]
  · rw [if_neg hc, lookupAssoc_append]
    have hne : ¬ (k = k') := fun he => h he.symm
    have hl : lookupAssoc [(k, v)] k' = Option.none := by
      rw [lookupAssoc_cons, if_neg hne]; rfl
    rw [hl]
    cases lookupAssoc r k' <;> rfl

theorem mapME_ok_spec {α β : Type} (f : α → Except Unit β) (l : List α) (l' : List β)
    (h : mapME f l = .ok l') :
    l'.length = l.length ∧
      ∀ i (h1 : i < l.length) (h2 : i < l'.length),
        f (l.get ⟨i, h1⟩) = .ok (l'.get ⟨i, h2⟩) := by
  induction l generalizing l' with
  | nil =>
    cases l' with
    | nil => exact ⟨rfl, fun i h1 _ => absurd h1 (Nat.not_lt_zero i)⟩
    | cons b bs => simp [mapME] at h
  | cons a l ih =>
    unfold mapME at h
    cases hfa : f a with
    | error e => rw [hfa] at h; simp [Bind.bind, Except.bind] at h
    | ok b =>
      rw [hfa] at h
      cases hml : mapME f l with
      | error e =>
        rw [hml] at h; simp [Bind.bind, Except.bind] at h
      | ok bs =>
        rw [hml] at h
        simp only [Bind.bind, Except.bind, pure, Except.pure, Except.ok.injEq] at h
        subst h
        obtain ⟨hlen, hget⟩ := ih bs hml
        refine ⟨by simp [hlen], ?_⟩
        intro i h1 h2
        cases i with
        | zero => simpa using hfa
        | succ j =>
          simpa using hget j (Nat.lt_of_succ_lt_succ h1) (Nat.lt_of_succ_lt_succ h2)

/-! ### Haversine lemmas -/

theorem haversine_self (lon lat : ℝ) : haversine lon lat lon lat = 0 := by
  unfold haversine
  norm_num

theorem haversine_comm (lon1 lat1 lon2 lat2 : ℝ) :
    haversine lon1 lat1 lon2 lat2 = haversine lon2 lat2 lon1 lat1 := by
  unfold haversine
  have h1 : ∀ x : ℝ, Real.sin (-x) ^ 2 = Real.sin x ^ 2 := fun x => by
    rw [Real.sin_neg]; ring
  rw [show (rad lat1 - rad lat2) / 2 = -((rad lat2 - rad lat1) / 2) from by ring,
    show (rad lon1 - rad lon2) / 2 = -((rad lon2 - rad lon1) / 2) from by ring, h1, h1,
    mul_comm (Real.cos (rad lat2)) (Real.cos (rad lat1))]

theorem haversine_nonneg (lon1 lat1 lon2 lat2 : ℝ) :
    0 ≤ haversine lon1 lat1 lon2 lat2 := by
  unfold haversine
  have h := Real.arcsin_nonneg.mpr (Real.sqrt_nonneg
    (Real.sin ((rad lat2 - rad lat1) / 2) ^ 2 +
      Real.cos (rad lat1) * Real.cos (rad lat2) *
        Real.sin ((rad lon2 - rad lon1) / 2) ^ 2))
  exact mul_nonneg (mul_nonneg (by norm_num) h) (by norm_num)

/-- C7: the haversine distance from a point to itself is 0, and haversine is
symmetric in its two points. -/
theorem C7_haversine_self_and_symm :
    ∀ lon1 lat1 lon2 lat2 : ℝ,
      haversine lon1 lat1 lon1 lat1 = 0 ∧
      haversine lon1 lat1 lon2 lat2 = haversine lon2 lat2 lon1 lat1 :=
  fun lon1 lat1 lon2 lat2 => ⟨haversine_self lon1 lat1, haversine_comm lon1 lat1 lon2 lat2⟩

/-- C5: a listing row whose latitude or longitude is missing produces the
fully missing result: all three per-line distances `NaN` and no nearest
station name, with no distance computation and no exception. -/
theorem C5_missing_coords (row : Row) (metro : List Station)
    (h : cellNA (getCell row "latitude") = true ∨ cellNA (getCell row "longitude") = true) :
    get_metro_distances row metro = ⟨Option.none, Option.none, Option.none, Option.none⟩ := by
  unfold get_metro_distances
  rcases h with h | h <;> simp [h]

/-- C5 witness: a concrete row with both coordinates absent. -/
theorem C5_missing_coords_witness :
    get_metro_distances [("price", PyVal.int 5000000)] [⟨"A", "Muzeum", 50, 14.4⟩] =
      ⟨Option.none, Option.none, Option.none, Option.none⟩ :=
  C5_missing_coords _ _ (Or.inl rfl)

/-- C6: `extract_floor_num` maps non-strings to 0; on strings the
(lower-cased) ground-floor marker takes precedence and yields 0, then the
basement marker yields -1, then the first signed integer substring
(`findInt`, the leftmost optional-minus digit run) is returned, defaulting
to 0; concretely "přízemí" ↦ 0, "suterén" ↦ -1, "2. patro" ↦ 2,
"-1. patro" ↦ -1, `None` ↦ 0 and a letters-only string ↦ 0. -/
theorem C6_extract_floor_num :
    (∀ v : PyVal, (∀ s, v ≠ .str s) → extract_floor_num v = 0) ∧
    (∀ s, strHasSub (strLower s) "přízemí" = true → extract_floor_num (.str s) = 0) ∧
    (∀ s, strHasSub (strLower s) "přízemí" = false → strHasSub (strLower s) "suterén" = true →
      extract_floor_num (.str s) = -1) ∧
    (∀ s n, strHasSub (strLower s) "přízemí" = false → strHasSub (strLower s) "suterén" = false →
      findInt (strLower s).data = some n → extract_floor_num (.str s) = n) ∧
    (∀ s, strHasSub (strLower s) "přízemí" = false → strHasSub (strLower s) "suterén" = false →
      findInt (strLower s).data = Option.none → extract_floor_num (.str s) = 0) ∧
    (extract_floor_num (.str "přízemí") = 0 ∧ extract_floor_num (.str "suterén") = -1 ∧
      extract_floor_num (.str "2. patro") = 2 ∧ extract_floor_num (.str "-1. patro") = -1 ∧
      extract_floor_num .none = 0 ∧ extract_floor_num (.str "chodba") = 0) := by
  refine ⟨?_, ?_, ?_, ?_, ?_, by decide⟩
  · intro v hv
    cases v with
    | str s => exact absurd rfl (hv s)
    | none => rfl
    | bool b => rfl
    | int n => rfl
    | real r => rfl
    | list xs => rfl
    | dict kvs => rfl
  · intro s h
    simp [extract_floor_num, h]
  · intro s h1 h2
    simp [extract_floor_num, h1, h2]
  · intro s n h1 h2 h3
    simp [extract_floor_num, h1, h2, h3]
  · intro s h1 h2 h3
    simp [extract_floor_num, h1, h2, h3]

/-- C6 witness: a non-string floor value and a plain numeric label. -/
theorem C6_extract_floor_num_witness :
    extract_floor_num (.int 7) = 0 ∧ extract_floor_num (.str "3. np") = 3 :=
  ⟨C6_extract_floor_num.1 (.int 7) (fun s h => by cases h),
   C6_extract_floor_num.2.2.2.1 "3. np" 3 (by decide) (by decide) (by decide)⟩

/-- C2 counterexample: a blob with two entries whose names both contain the
usable-area label; the stored value is the second entry's value, not the
first's, so "first match per label wins" fails on the code. -/
theorem C2_first_match_counterexample :
    extract_details
      (fun _ => Except.ok (PyVal.list
        [PyVal.dict [(PyVal.str "name", PyVal.str "Užitná plocha"),
                     (PyVal.str "value", PyVal.int 1)],
         PyVal.dict [(PyVal.str "name", PyVal.str "Užitná plocha celkem"),
                     (PyVal.str "value", PyVal.int 2)]]))
      (PyVal.str "x")
      = .ok [("usable_area", PyVal.int 2)] ∧ PyVal.int 2 ≠ PyVal.int 1 := by
  constructor
  · rfl
  · intro h
    injection h with h'
    exact absurd h' (by decide)

/-- C4 counterexample: a well-formed list whose single entry has the truthy
non-container name `1`; the membership test `'Užitná ploch' in 1` raises
`TypeError`, so `extract_details` does not "never raise". -/
theorem C4_never_raises_counterexample :
    extract_details
      (fun _ => Except.ok (PyVal.list [PyVal.dict [(PyVal.str "name", PyVal.int 1)]]))
      (PyVal.str "x") = .error () := rfl

/-! ### Metro-distance fold machinery -/

theorem lineUpd_global (d : ℝ) (st : DistState) (l : String) :
    (lineUpd d st l).global_min_dist = st.global_min_dist := by
  unfold lineUpd; split_ifs <;> rfl

theorem lineUpd_name (d : ℝ) (st : DistState) (l : String) :
    (lineUpd d st l).nearest_name = st.nearest_name := by
  unfold lineUpd; split_ifs <;> rfl

theorem metroStep_dist_A (la lo : ℝ) (st : DistState) (s : Station) :
    (metroStep la lo st s).dist_A =
      if s.line = "A" then
        (if haversine lo la s.lng s.lat < st.dist_A then haversine lo la s.lng s.lat
         else st.dist_A)
      else st.dist_A := by
  unfold metroStep globalUpd lineUpd; split_ifs <;> rfl

theorem metroStep_dist_B (la lo : ℝ) (st : DistState) (s : Station) :
    (metroStep la lo st s).dist_B =
      if s.line = "B" then
        (if haversine lo la s.lng s.lat < st.dist_B then haversine lo la s.lng s.lat
         else st.dist_B)
      else st.dist_B := by
  unfold metroStep globalUpd lineUpd; split_ifs <;> first | rfl | (exfalso; simp_all)

theorem metroStep_dist_C (la lo : ℝ) (st : DistState) (s : Station) :
    (metroStep la lo st s).dist_C =
      if s.line = "C" then
        (if haversine lo la s.lng s.lat < st.dist_C then haversine lo la s.lng s.lat
         else st.dist_C)
      else st.dist_C := by
  unfold metroStep globalUpd lineUpd; split_ifs <;> first | rfl | (exfalso; simp_all)

theorem fold_dist_A (la lo : ℝ) (metro : List Station) (st : DistState) :
    (metro.foldl (metroStep la lo) st).dist_A =
      ((metro.filter (fun s => s.line == "A")).map (fun s => haversine lo la s.lng s.lat)).foldl
        (fun d x => if x < d then x else d) st.dist_A := by
  induction metro generalizing st with
  | nil => rfl
  | cons s metro ih =>
    rw [List.foldl_cons, ih]
    by_cases hline : s.line = "A"
    · rw [List.filter_cons, if_pos (by simp [hline]), List.map_cons, List.foldl_cons,
        metroStep_dist_A, if_pos hline]
    · rw [List.filter_cons, if_neg (by simp [hline]), metroStep_dist_A, if_neg hline]

theorem fold_dist_B (la lo : ℝ) (metro : List Station) (st : DistState) :
    (metro.foldl (metroStep la lo) st).dist_B =
      ((metro.filter (fun s => s.line == "B")).map (fun s => haversine lo la s.lng s.lat)).foldl
        (fun d x => if x < d then x else d) st.dist_B := by
  induction metro generalizing st with
  | nil => rfl
  | cons s metro ih =>
    rw [List.foldl_cons, ih]
    by_cases hline : s.line = "B"
    · rw [List.filter_cons, if_pos (by simp [hline]), List.map_cons, List.foldl_cons,
        metroStep_dist_B, if_pos hline]
    · rw [List.filter_cons, if_neg (by simp [hline]), metroStep_dist_B, if_neg hline]

theorem fold_dist_C (la lo : ℝ) (metro : List Station) (st : DistState) :
    (metro.foldl (metroStep la lo) st).dist_C =
      ((metro.filter (fun s => s.line == "C")).map (fun s => haversine lo la s.lng s.lat)).foldl
        (fun d x => if x < d then x else d) st.dist_C := by
  induction metro generalizing st with
  | nil => rfl
  | cons s metro ih =>
    rw [List.foldl_cons, ih]
    by_cases hline : s.line = "C"
    · rw [List.filter_cons, if_pos (by simp [hline]), List.map_cons, List.foldl_cons,
        metroStep_dist_C, if_pos hline]
    · rw [List.filter_cons, if_neg (by simp [hline]), metroStep_dist_C, if_neg hline]

theorem foldLow_le_init : ∀ (l : List ℝ) (a : ℝ),
    l.foldl (fun d x => if x < d then x else d) a ≤ a := by
  intro l
  induction l with
  | nil => intro a; simp
  | cons x l ih =>
    intro a
    rw [List.foldl_cons]
    refine le_trans (ih _) ?_
    split_ifs with h
    · exact le_of_lt h
    · exact le_refl a

theorem foldLow_le_mem : ∀ (l : List ℝ) (a x : ℝ), x ∈ l →
    l.foldl (fun d x => if x < d then x else d) a ≤ x := by
  intro l
  induction l with
  | nil => intro a x hx; cases hx
  | cons y l ih =>
    intro a x hx
    rw [List.foldl_cons]
    rcases List.mem_cons.mp hx with rfl | hx'
    · refine le_trans (foldLow_le_init _ _) ?_
      split_ifs with h
      · exact le_refl x
      · exact le_of_not_lt h
    · exact ih _ x hx'

theorem foldLow_eq_init_or_mem : ∀ (l : List ℝ) (a : ℝ),
    l.foldl (fun d x => if x < d then x else d) a = a ∨
      l.foldl (fun d x => if x < d then x else d) a ∈ l := by
  intro l
  induction l with
  | nil => intro a; exact Or.inl rfl
  | cons x l ih =>
    intro a
    rw [List.foldl_cons]
    rcases ih (if x < a then x else a) with h | h
    · rw [h]
      split_ifs with hx
      · exact Or.inr (List.mem_cons_self _ _)
      · exact Or.inl rfl
    · exact Or.inr (List.mem_cons_of_mem _ h)

theorem metroStep_pair (la lo : ℝ) (st : DistState) (s : Station) :
    ((metroStep la lo st s).global_min_dist, (metroStep la lo st s).nearest_name) =
      gstep la lo (st.global_min_dist, st.nearest_name) s := by
  unfold metroStep gstep globalUpd
  split_ifs with h1 h2 <;> simp_all [lineUpd_global, lineUpd_name]

theorem fold_pair (la lo : ℝ) (metro : List Station) (st : DistState) :
    ((metro.foldl (metroStep la lo) st).global_min_dist,
      (metro.foldl (metroStep la lo) st).nearest_name) =
      metro.foldl (gstep la lo) (st.global_min_dist, st.nearest_name) := by
  induction metro generalizing st with
  | nil => rfl
  | cons s metro ih =>
    rw [List.foldl_cons, List.foldl_cons, ih, metroStep_pair]

theorem gfold_keep (la lo : ℝ) : ∀ (l : List Station) (g : ℝ) (nm : Option String),
    (∀ s ∈ l, ¬ haversine lo la s.lng s.lat < g) →
    l.foldl (gstep la lo) (g, nm) = (g, nm) := by
  intro l
  induction l with
  | nil => intro g nm _; rfl
  | cons s l ih =>
    intro g nm h
    rw [List.foldl_cons]
    have hs : gstep la lo (g, nm) s = (g, nm) := by
      simp only [gstep]
      rw [if_neg (h s (List.mem_cons_self s l))]
    rw [hs]
    exact ih g nm (fun s' hs' => h s' (List.mem_cons_of_mem s hs'))

theorem gfold_unique (la lo : ℝ) : ∀ (l : List Station) (s0 : Station) (g : ℝ)
    (nm : Option String), s0 ∈ l → haversine lo la s0.lng s0.lat < g →
    (∀ s ∈ l, s ≠ s0 → haversine lo la s0.lng s0.lat < haversine lo la s.lng s.lat) →
    l.foldl (gstep la lo) (g, nm) = (haversine lo la s0.lng s0.lat, some s0.name) := by
  intro l
  induction l with
  | nil => intro s0 g nm h0; cases h0
  | cons s l ih =>
    intro s0 g nm h0 hg hu
    rw [List.foldl_cons]
    by_cases hs : s = s0
    · subst hs
      have hstep : gstep la lo (g, nm) s = (haversine lo la s.lng s.lat, some s.name) := by
        simp only [gstep]
        rw [if_pos hg]
      rw [hstep]
      apply gfold_keep
      intro s' hs'
      by_cases he : s' = s
      · subst he; exact lt_irrefl _
      · exact lt_asymm (hu s' (List.mem_cons_of_mem _ hs') he)
    · have h0' : s0 ∈ l := by
        rcases List.mem_cons.mp h0 with he | h' 
        · exact absurd he.symm hs
        · exact h'
      have hws : haversine lo la s0.lng s0.lat < haversine lo la s.lng s.lat :=
        hu s (List.mem_cons_self _ _) (fun he => hs he)
      simp only [gstep]
      split_ifs with hlt
      · exact ih s0 _ _ h0' hws (fun s' h' hne => hu s' (List.mem_cons_of_mem _ h') hne)
      · exact ih s0 _ _ h0' hg (fun s' h' hne => hu s' (List.mem_cons_of_mem _ h') hne)

/-- C1: for a listing with present coordinates and any station table,
`get_metro_distances` returns per line A/B/C the minimum haversine distance
to that line's stations (sentinel 99999 when no station of the line comes
below it), and the name of the single globally nearest station; a listing
exactly at a station's coordinates gets distance 0 on that station's line
and, when strictly nearest, that station's name. -/
theorem C1_metro_min_distances (row : Row) (metro : List Station) (lat lon : ℝ)
    (hlat : getCell row "latitude" = .real lat) (hlon : getCell row "longitude" = .real lon) :
    (∀ l, l = "A" ∨ l = "B" ∨ l = "C" →
      ∃ d, lineDist (get_metro_distances row metro) l = some d ∧ d ≤ 99999 ∧
        (∀ s ∈ metro, s.line = l → d ≤ haversine lon lat s.lng s.lat) ∧
        (d = 99999 ∨ ∃ s ∈ metro, s.line = l ∧ d = haversine lon lat s.lng s.lat)) ∧
    (∀ s0 ∈ metro, haversine lon lat s0.lng s0.lat < 99999 →
      (∀ s ∈ metro, s ≠ s0 →
        haversine lon lat s0.lng s0.lat < haversine lon lat s.lng s.lat) →
      (get_metro_distances row metro).nearest_name = some s0.name) ∧
    (∀ s0 ∈ metro, s0.lng = lon → s0.lat = lat →
      (s0.line = "A" ∨ s0.line = "B" ∨ s0.line = "C") →
      lineDist (get_metro_distances row metro) s0.line = some 0) ∧
    (∀ s0 ∈ metro, s0.lng = lon → s0.lat = lat →
      (∀ s ∈ metro, s ≠ s0 → 0 < haversine lon lat s.lng s.lat) →
      (get_metro_distances row metro).nearest_name = some s0.name) := by
  have hres : get_metro_distances row metro =
      ⟨some ((metro.foldl (metroStep lat lon) initDistState).dist_A),
       some ((metro.foldl (metroStep lat lon) initDistState).dist_B),
       some ((metro.foldl (metroStep lat lon) initDistState).dist_C),
       (metro.foldl (metroStep lat lon) initDistState).nearest_name⟩ := by
    unfold get_metro_distances
    rw [hlat, hlon]
    rfl
  have hmain : ∀ l, l = "A" ∨ l = "B" ∨ l = "C" →
      ∃ d, lineDist (get_metro_distances row metro) l = some d ∧ d ≤ 99999 ∧
        (∀ s ∈ metro, s.line = l → d ≤ haversine lon lat s.lng s.lat) ∧
        (d = 99999 ∨ ∃ s ∈ metro, s.line = l ∧ d = haversine lon lat s.lng s.lat) := by
    intro l hl
    rcases hl with rfl | rfl | rfl
    · refine ⟨(metro.foldl (metroStep lat lon) initDistState).dist_A, ?_, ?_, ?_, ?_⟩
      · rw [hres]; rfl
      · rw [fold_dist_A]; exact foldLow_le_init _ _
      · intro s hs hline
        rw [fold_dist_A]
        exact foldLow_le_mem _ _ _
          (List.mem_map_of_mem _ (List.mem_filter.mpr ⟨hs, by simp [hline]⟩))
      · rw [fold_dist_A]
        rcases foldLow_eq_init_or_mem
            ((metro.filter (fun s => s.line == "A")).map
              (fun s => haversine lon lat s.lng s.lat)) initDistState.dist_A with h | h
        · exact Or.inl h
        · right
          obtain ⟨s, hsf, heq⟩ := List.mem_map.mp h
          obtain ⟨hs, hsl⟩ := List.mem_filter.mp hsf
          exact ⟨s, hs, by simpa using hsl, heq.symm⟩
    · refine ⟨(metro.foldl (metroStep lat lon) initDistState).dist_B, ?_, ?_, ?_, ?_⟩
      · rw [hres]; rfl
      · rw [fold_dist_B]; exact foldLow_le_init _ _
      · intro s hs hline
        rw [fold_dist_B]
        exact foldLow_le_mem _ _ _
          (List.mem_map_of_mem _ (List.mem_filter.mpr ⟨hs, by simp [hline]⟩))
      · rw [fold_dist_B]
        rcases foldLow_eq_init_or_mem
            ((metro.filter (fun s => s.line == "B")).map
              (fun s => haversine lon lat s.lng s.lat)) initDistState.dist_B with h | h
        · exact Or.inl h
        · right
          obtain ⟨s, hsf, heq⟩ := List.mem_map.mp h
          obtain ⟨hs, hsl⟩ := List.mem_filter.mp hsf
          exact ⟨s, hs, by simpa using hsl, heq.symm⟩
    · refine ⟨(metro.foldl (metroStep lat lon) initDistState).dist_C, ?_, ?_, ?_, ?_⟩
      · rw [hres]; rfl
      · rw [fold_dist_C]; exact foldLow_le_init _ _
      · intro s hs hline
        rw [fold_dist_C]
        exact foldLow_le_mem _ _ _
          (List.mem_map_of_mem _ (List.mem_filter.mpr ⟨hs, by simp [hline]⟩))
      · rw [fold_dist_C]
        rcases foldLow_eq_init_or_mem
            ((metro.filter (fun s => s.line == "C")).map
              (fun s => haversine lon lat s.lng s.lat)) initDistState.dist_C with h | h
        · exact Or.inl h
        · right
          obtain ⟨s, hsf, heq⟩ := List.mem_map.mp h
          obtain ⟨hs, hsl⟩ := List.mem_filter.mp hsf
          exact ⟨s, hs, by simpa using hsl, heq.symm⟩
  have hname : ∀ s0 ∈ metro, haversine lon lat s0.lng s0.lat < 99999 →
      (∀ s ∈ metro, s ≠ s0 →
        haversine lon lat s0.lng s0.lat < haversine lon lat s.lng s.lat) →
      (get_metro_distances row metro).nearest_name = some s0.name := by
    intro s0 hs0 hlt hu
    have hp := fold_pair lat lon metro initDistState
    have hg := gfold_unique lat lon metro s0 initDistState.global_min_dist
      initDistState.nearest_name hs0 hlt hu
    rw [hres]
    show (metro.foldl (metroStep lat lon) initDistState).nearest_name = some s0.name
    have hq := congrArg Prod.snd (hp.trans hg)
    simpa using hq
  have hzero : ∀ s0 ∈ metro, s0.lng = lon → s0.lat = lat →
      (s0.line = "A" ∨ s0.line = "B" ∨ s0.line = "C") →
      lineDist (get_metro_distances row metro) s0.line = some 0 := by
    intro s0 hs0 hlng hlatt hline
    obtain ⟨d, hd, hd99, hdle, hdchar⟩ := hmain s0.line hline
    have hs0zero : haversine lon lat s0.lng s0.lat = 0 := by
      rw [hlng, hlatt, haversine_self]
    have hdle0 : d ≤ 0 := by
      have hx := hdle s0 hs0 rfl
      rwa [hs0zero] at hx
    have hd0 : d = 0 := by
      rcases hdchar with h99 | ⟨s, _, _, hds⟩
      · exfalso; rw [h99] at hdle0; norm_num at hdle0
      · have hge : 0 ≤ d := hds ▸ haversine_nonneg lon lat s.lng s.lat
        exact le_antisymm hdle0 hge
    rw [hd0] at hd
    exact hd
  have hzeroname : ∀ s0 ∈ metro, s0.lng = lon → s0.lat = lat →
      (∀ s ∈ metro, s ≠ s0 → 0 < haversine lon lat s.lng s.lat) →
      (get_metro_distances row metro).nearest_name = some s0.name := by
    intro s0 hs0 hlng hlatt hpos
    apply hname s0 hs0
    · rw [hlng, hlatt, haversine_self]; norm_num
    · intro s hs hne
      rw [hlng, hlatt, haversine_self]
      exact hpos s hs hne
  exact ⟨hmain, hname, hzero, hzeroname⟩

/-- C1 witness: a listing exactly at the single station of line A. -/
theorem C1_metro_min_distances_witness :
    lineDist (get_metro_distances
      [("latitude", PyVal.real 50), ("longitude", PyVal.real 14)]
      [⟨"A", "Muzeum", 50, 14⟩]) "A" = some 0 ∧
    (get_metro_distances
      [("latitude", PyVal.real 50), ("longitude", PyVal.real 14)]
      [⟨"A", "Muzeum", 50, 14⟩]).nearest_name = some "Muzeum" := by
  have h := C1_metro_min_distances
    [("latitude", PyVal.real 50), ("longitude", PyVal.real 14)]
    [⟨"A", "Muzeum", 50, 14⟩] 50 14 rfl rfl
  have hmem : (⟨"A", "Muzeum", 50, 14⟩ : Station) ∈ [(⟨"A", "Muzeum", 50, 14⟩ : Station)] :=
    List.mem_singleton.mpr rfl
  exact ⟨h.2.2.1 _ hmem rfl rfl (Or.inl rfl),
    h.2.2.2 _ hmem rfl rfl (fun s hs hne => absurd (List.mem_singleton.mp hs) hne)⟩

/-! ### Feature-encoder lemmas -/

theorem charsHasPre_shape : ∀ (pre l : List Char), charsHasPre pre l = true →
    ∃ rest, l = pre ++ rest := by
  intro pre
  induction pre with
  | nil => intro l _; exact ⟨l, rfl⟩
  | cons a pre ih =>
    intro l h
    cases l with
    | nil => simp [charsHasPre] at h
    | cons b bs =>
      unfold charsHasPre at h
      rw [Bool.and_eq_true] at h
      obtain ⟨h1, h2⟩ := h
      have hab : a = b := by simpa using h1
      obtain ⟨rest, hr⟩ := ih bs h2
      exact ⟨rest, by rw [hr, hab]; rfl⟩

theorem charsReplaceFuel_congr (pat rep : List Char) : ∀ (n m : ℕ) (l : List Char),
    l.length ≤ n → l.length ≤ m →
    charsReplaceFuel pat rep n l = charsReplaceFuel pat rep m l := by
  intro n
  induction n with
  | zero =>
    intro m l hn _
    have hl : l = [] := List.eq_nil_of_length_eq_zero (Nat.le_zero.mp hn)
    subst hl
    cases m <;> rfl
  | succ n ih =>
    intro m l hn hm
    cases l with
    | nil => cases m <;> rfl
    | cons c rest =>
      cases m with
      | zero => simp at hm
      | succ m' =>
        rw [List.length_cons] at hn hm
        by_cases hc : pat ≠ [] ∧ charsHasPre pat (c :: rest) = true
        · rw [charsReplaceFuel, charsReplaceFuel, if_pos hc, if_pos hc]
          have hdl := List.length_drop (pat.length - 1) rest
          exact congrArg _ (ih m' (rest.drop (pat.length - 1))
            (by omega) (by omega))
        · rw [charsReplaceFuel, charsReplaceFuel, if_neg hc, if_neg hc]
          exact congrArg _ (ih m' rest (by omega) (by omega))

theorem charsReplace_poi (rest : List Char) :
    charsReplace "poi_".data "500m_".data ('p' :: 'o' :: 'i' :: '_' :: rest) =
      '5' :: '0' :: '0' :: 'm' :: '_' :: charsReplace "poi_".data "500m_".data rest := by
  unfold charsReplace
  rw [List.length_cons, charsReplaceFuel, if_pos ⟨by decide, by rfl⟩]
  refine congrArg _ ?_
  exact charsReplaceFuel_congr _ _ _ _ rest (by simp only [List.length_cons]; omega) (le_refl _)

theorem replPoi_data (c : String) (h : strStarts c "poi_" = true) :
    (strReplaceAll c "poi_" "500m_").data =
      '5' :: '0' :: '0' :: 'm' :: '_' :: charsReplace "poi_".data "500m_".data (c.data.drop 4) := by
  obtain ⟨rest, hr⟩ := charsHasPre_shape "poi_".data c.data h
  show charsReplace "poi_".data "500m_".data c.data = _
  rw [hr]
  exact charsReplace_poi rest

theorem replPoi_not_starts (c : String) (h : strStarts c "poi_" = true) :
    strStarts (strReplaceAll c "poi_" "500m_") "poi_" = false := by
  unfold strStarts
  rw [replPoi_data c h]
  rfl

theorem replPoi_ne_poi (c c' : String) (hc : strStarts c "poi_" = true)
    (hc' : strStarts c' "poi_" = true) : strReplaceAll c "poi_" "500m_" ≠ c' := by
  intro he
  have hx := replPoi_not_starts c hc
  rw [he, hc'] at hx
  cases hx

theorem mem_ensureCol_self (cols : List String) (c : String) : c ∈ ensureCol cols c := by
  unfold ensureCol
  split_ifs with h
  · exact (strContains_iff cols c).mp h
  · exact List.mem_append_right _ (List.mem_singleton.mpr rfl)

theorem mem_ensureCol_of_mem (cols : List String) (c x : String) (h : x ∈ cols) :
    x ∈ ensureCol cols c := by
  unfold ensureCol
  split_ifs
  · exact h
  · exact List.mem_append_left _ h

theorem foldSetColumn_rows (cols : List String) (df : Df) (nm : String → String)
    (fn : String → Row → PyVal) :
    (cols.foldl (fun d c => setColumn d (nm c) (fun r => fn c r)) df).rows =
      df.rows.map (fun r => cols.foldl (fun r c => setCell r (nm c) (fn c r)) r) := by
  induction cols generalizing df with
  | nil => simp
  | cons c cols ih =>
    rw [List.foldl_cons, ih]
    show (df.rows.map (fun r => setCell r (nm c) (fn c r))).map _ = _
    rw [List.map_map]
    simp only [List.foldl_cons]
    rfl

theorem foldSetColumn_cols_preserve (cols : List String) (df : Df) (nm : String → String)
    (fn : String → Row → PyVal) (x : String) (h : x ∈ df.cols) :
    x ∈ (cols.foldl (fun d c => setColumn d (nm c) (fun r => fn c r)) df).cols := by
  induction cols generalizing df with
  | nil => exact h
  | cons c cols ih =>
    rw [List.foldl_cons]
    exact ih _ (mem_ensureCol_of_mem _ _ _ h)

theorem foldSetColumn_cols_mem : ∀ (cols : List String) (df : Df) (nm : String → String)
    (fn : String → Row → PyVal) (c : String), c ∈ cols →
    nm c ∈ (cols.foldl (fun d c => setColumn d (nm c) (fun r => fn c r)) df).cols := by
  intro cols
  induction cols with
  | nil => intro df nm fn c hc; cases hc
  | cons c0 cols ih =>
    intro df nm fn c hc
    rw [List.foldl_cons]
    rcases List.mem_cons.mp hc with rfl | h'
    · exact foldSetColumn_cols_preserve _ _ _ _ _ (mem_ensureCol_self _ _)
    · exact ih _ _ _ _ h'

theorem poiChain_preserve : ∀ (cols : List String) (r : Row) (k : String),
    (∀ c' ∈ cols, strReplaceAll c' "poi_" "500m_" ≠ k) →
    getCell (cols.foldl (fun r c' => setCell r (strReplaceAll c' "poi_" "500m_")
      (cellFlagLe 500 (getCell r c'))) r) k = getCell r k := by
  intro cols
  induction cols with
  | nil => intro r k _; rfl
  | cons c0 cols ih =>
    intro r k hk
    rw [List.foldl_cons]
    rw [ih _ _ (fun c' h' => hk c' (List.mem_cons_of_mem _ h'))]
    exact getCell_setCell_ne _ _ _ _ (fun he => hk c0 (List.mem_cons_self _ _) he.symm)

theorem poiChain_getCell : ∀ (cols : List String) (r : Row) (c : String), c ∈ cols →
    (∀ c' ∈ cols, strStarts c' "poi_" = true) →
    (∀ c' ∈ cols, strReplaceAll c' "poi_" "500m_" = strReplaceAll c "poi_" "500m_" →
      c' = c) →
    getCell (cols.foldl (fun r c' => setCell r (strReplaceAll c' "poi_" "500m_")
      (cellFlagLe 500 (getCell r c'))) r) (strReplaceAll c "poi_" "500m_") =
      cellFlagLe 500 (getCell r c) := by
  intro cols
  induction cols with
  | nil => intro r c hc; cases hc
  | cons c0 cols ih =>
    intro r c hc hpoi huniq
    rw [List.foldl_cons]
    rcases List.mem_cons.mp hc with rfl | h'
    · by_cases hmem : c ∈ cols
      · rw [ih _ _ hmem (fun c' h' => hpoi c' (List.mem_cons_of_mem _ h'))
          (fun c' h' he => huniq c' (List.mem_cons_of_mem _ h') he)]
        rw [getCell_setCell_ne _ _ _ _
          (Ne.symm (replPoi_ne_poi c c (hpoi c (List.mem_cons_self _ _))
            (hpoi c (List.mem_cons_self _ _))))]
      · rw [poiChain_preserve cols _ (strReplaceAll c "poi_" "500m_")
          (fun c' h' he => hmem ((huniq c' (List.mem_cons_of_mem _ h') he) ▸ h'))]
        exact getCell_setCell_self _ _ _
    · rw [ih _ _ h' (fun c' h'' => hpoi c' (List.mem_cons_of_mem _ h''))
        (fun c' h'' he => huniq c' (List.mem_cons_of_mem _ h'') he)]
      rw [getCell_setCell_ne _ _ _ _
        (Ne.symm (replPoi_ne_poi c0 c (hpoi c0 (List.mem_cons_self _ _))
          (hpoi c (List.mem_cons_of_mem _ h'))))]

theorem foldLow_gt (b : ℝ) : ∀ (l : List ℝ) (a : ℝ), b < a → (∀ x ∈ l, b < x) →
    b < l.foldl (fun d x => if x < d then x else d) a := by
  intro l
  induction l with
  | nil => intro a ha _; exact ha
  | cons x l ih =>
    intro a ha h
    rw [List.foldl_cons]
    refine ih _ ?_ (fun x' hx' => h x' (List.mem_cons_of_mem _ hx'))
    split_ifs
    · exact h x (List.mem_cons_self _ _)
    · exact ha

theorem metroFlagStep_rows_len (d : Df) (l : String) :
    (if d.cols.contains ("metro_dist_" ++ l) then
        setColumn d ("1000m_dist_" ++ l)
          (fun r => cellFlagLe 1000 (getCell r ("metro_dist_" ++ l)))
      else d).rows.length = d.rows.length := by
  split_ifs <;> simp [setColumn]

theorem metroFlagStep_flag (d : Df) (l : String) (hmem : ("metro_dist_" ++ l) ∈ d.cols)
    (i : ℕ) :
    ((if d.cols.contains ("metro_dist_" ++ l) then
        setColumn d ("1000m_dist_" ++ l)
          (fun r => cellFlagLe 1000 (getCell r ("metro_dist_" ++ l)))
      else d).rows[i]?).map (fun r => getCell r ("1000m_dist_" ++ l)) =
      (d.rows[i]?).map (fun r => cellFlagLe 1000 (getCell r ("metro_dist_" ++ l))) := by
  rw [if_pos ((strContains_iff _ _).mpr hmem)]
  show ((d.rows.map _)[i]?).map _ = _
  rw [List.getElem?_map]
  cases d.rows[i]? with
  | none => rfl
  | some r =>
    exact congrArg some (getCell_setCell_self _ _ _)

theorem metroFlagStep_other (d : Df) (l k : String) (hk : k ≠ "1000m_dist_" ++ l) (i : ℕ) :
    ((if d.cols.contains ("metro_dist_" ++ l) then
        setColumn d ("1000m_dist_" ++ l)
          (fun r => cellFlagLe 1000 (getCell r ("metro_dist_" ++ l)))
      else d).rows[i]?).map (fun r => getCell r k) =
      (d.rows[i]?).map (fun r => getCell r k) := by
  split_ifs with h
  · show ((d.rows.map _)[i]?).map _ = _
    rw [List.getElem?_map]
    cases d.rows[i]? with
    | none => rfl
    | some r =>
      exact congrArg some (getCell_setCell_ne _ _ _ _ hk)
  · rfl

theorem metroFlagStep_cols_mono (d : Df) (l x : String) (h : x ∈ d.cols) :
    x ∈ (if d.cols.contains ("metro_dist_" ++ l) then
        setColumn d ("1000m_dist_" ++ l)
          (fun r => cellFlagLe 1000 (getCell r ("metro_dist_" ++ l)))
      else d).cols := by
  split_ifs
  · exact mem_ensureCol_of_mem _ _ _ h
  · exact h

theorem metroFlagStep_flag_cols (d : Df) (l : String) (hmem : ("metro_dist_" ++ l) ∈ d.cols) :
    ("1000m_dist_" ++ l) ∈ (if d.cols.contains ("metro_dist_" ++ l) then
        setColumn d ("1000m_dist_" ++ l)
          (fun r => cellFlagLe 1000 (getCell r ("metro_dist_" ++ l)))
      else d).cols := by
  rw [if_pos ((strContains_iff _ _).mpr hmem)]
  exact mem_ensureCol_self _ _

theorem metroFlagStep_read (d : Df) (l k : String) (hk : k ≠ "1000m_dist_" ++ l)
    (f : PyVal → PyVal) (i : ℕ) :
    ((if d.cols.contains ("metro_dist_" ++ l) then
        setColumn d ("1000m_dist_" ++ l)
          (fun r => cellFlagLe 1000 (getCell r ("metro_dist_" ++ l)))
      else d).rows[i]?).map (fun r => f (getCell r k)) =
      (d.rows[i]?).map (fun r => f (getCell r k)) := by
  split_ifs with h
  · show ((d.rows.map _)[i]?).map _ = _
    rw [List.getElem?_map]
    cases d.rows[i]? with
    | none => rfl
    | some r => exact congrArg some (congrArg f (getCell_setCell_ne _ _ _ _ hk))
  · rfl

/-- C8: the encoder turns every `poi_*` distance column into a binary
`500m_*` column (1 iff distance ≤ 500) and drops the raw column, and for
each present per-line metro distance column adds a `1000m_dist_*` binary
column (1 iff distance ≤ 1000) while retaining the raw column; both
thresholds are inclusive. -/
theorem C8_proximity_flags :
    (∀ (df : Df) (c : String), c ∈ df.cols → strStarts c "poi_" = true →
      (∀ c' ∈ df.cols, strStarts c' "poi_" = true →
        strReplaceAll c' "poi_" "500m_" = strReplaceAll c "poi_" "500m_" → c' = c) →
      strReplaceAll c "poi_" "500m_" ∈ (poiStage df).cols ∧
      c ∉ (poiStage df).cols ∧
      (poiStage df).rows.length = df.rows.length ∧
      (∀ i : ℕ,
        ((poiStage df).rows[i]?).map (fun r => getCell r (strReplaceAll c "poi_" "500m_")) =
          (df.rows[i]?).map (fun r => cellFlagLe 500 (getCell r c)))) ∧
    (∀ (df : Df) (l : String), l = "A" ∨ l = "B" ∨ l = "C" → ("metro_dist_" ++ l) ∈ df.cols →
      ("metro_dist_" ++ l) ∈ (metroFlagStage df).cols ∧
      ("1000m_dist_" ++ l) ∈ (metroFlagStage df).cols ∧
      (∀ i : ℕ,
        ((metroFlagStage df).rows[i]?).map (fun r => getCell r ("1000m_dist_" ++ l)) =
          (df.rows[i]?).map (fun r => cellFlagLe 1000 (getCell r ("metro_dist_" ++ l)))) ∧
      (∀ i : ℕ,
        ((metroFlagStage df).rows[i]?).map (fun r => getCell r ("metro_dist_" ++ l)) =
          (df.rows[i]?).map (fun r => getCell r ("metro_dist_" ++ l)))) ∧
    (∀ r : ℝ, cellFlagLe 500 (.real r) = .int 1 ↔ r ≤ 500) ∧
    (∀ r : ℝ, cellFlagLe 500 (.real r) = .int 0 ↔ ¬ r ≤ 500) ∧
    (∀ r : ℝ, cellFlagLe 1000 (.real r) = .int 1 ↔ r ≤ 1000) ∧
    (∀ r : ℝ, cellFlagLe 1000 (.real r) = .int 0 ↔ ¬ r ≤ 1000) ∧
    (cellFlagLe 500 (.real 500) = .int 1 ∧ cellFlagLe 500 (.real 501) = .int 0 ∧
      cellFlagLe 1000 (.real 1000) = .int 1 ∧ cellFlagLe 1000 (.real 1001) = .int 0) := by
  refine ⟨?_, ?_, ?_, ?_, ?_, ?_, ?_, ?_, ?_, ?_⟩
  · intro df c hc hstarts huniq
    have hcd : c ∈ df.cols.filter (fun c => strStarts c "poi_") :=
      List.mem_filter.mpr ⟨hc, hstarts⟩
    have hpoi' : ∀ c' ∈ df.cols.filter (fun c => strStarts c "poi_"),
        strStarts c' "poi_" = true := fun c' h' => (List.mem_filter.mp h').2
    have huniq' : ∀ c' ∈ df.cols.filter (fun c => strStarts c "poi_"),
        strReplaceAll c' "poi_" "500m_" = strReplaceAll c "poi_" "500m_" → c' = c :=
      fun c' h' he => huniq c' (List.mem_filter.mp h').1 (List.mem_filter.mp h').2 he
    have hnotin : strReplaceAll c "poi_" "500m_" ∉
        df.cols.filter (fun c => strStarts c "poi_") := by
      intro hmem
      have hx := hpoi' _ hmem
      rw [replPoi_not_starts c hstarts] at hx
      cases hx
    have hrows := foldSetColumn_rows (df.cols.filter fun c => strStarts c "poi_") df
      (fun c => strReplaceAll c "poi_" "500m_") (fun c r => cellFlagLe 500 (getCell r c))
    refine ⟨?_, ?_, ?_, ?_⟩
    · unfold poiStage dropColumns
      refine List.mem_filter.mpr ⟨?_, ?_⟩
      · exact foldSetColumn_cols_mem (df.cols.filter fun c => strStarts c "poi_") df
          (fun c => strReplaceAll c "poi_" "500m_")
          (fun c r => cellFlagLe 500 (getCell r c)) c hcd
      · rw [(strContains_false_iff _ _).mpr hnotin]
        rfl
    · intro hmem
      unfold poiStage dropColumns at hmem
      obtain ⟨_, hb⟩ := List.mem_filter.mp hmem
      rw [Bool.not_eq_true'] at hb
      exact absurd hcd ((strContains_false_iff _ _).mp hb)
    · simp only [poiStage, dropColumns, List.length_map, hrows]
    · intro i
      unfold poiStage dropColumns
      show ((((df.cols.filter fun c => strStarts c "poi_").foldl _ df).rows.map _)[i]?).map _ = _
      rw [hrows, List.getElem?_map, List.getElem?_map]
      cases hr : df.rows[i]? with
      | none => rfl
      | some r =>
        show some _ = some _
        refine congrArg some ?_
        refine Eq.trans (getCell_filterKey _
          (fun k => !(df.cols.filter fun c => strStarts c "poi_").contains k) _ ?_) ?_
        · show (!(df.cols.filter fun c => strStarts c "poi_").contains
            (strReplaceAll c "poi_" "500m_")) = true
          rw [(strContains_false_iff _ _).mpr hnotin]
          rfl
        · exact poiChain_getCell _ _ _ hcd hpoi' huniq'
  · intro df l hl hmem
    rcases hl with rfl | rfl | rfl
    · refine ⟨?_, ?_, ?_, ?_⟩
      · simp only [metroFlagStage, List.foldl_cons, List.foldl_nil]
        exact metroFlagStep_cols_mono _ _ _ (metroFlagStep_cols_mono _ _ _
          (metroFlagStep_cols_mono _ _ _ hmem))
      · simp only [metroFlagStage, List.foldl_cons, List.foldl_nil]
        exact metroFlagStep_cols_mono _ _ _ (metroFlagStep_cols_mono _ _ _
          (metroFlagStep_flag_cols _ _ hmem))
      · intro i
        simp only [metroFlagStage, List.foldl_cons, List.foldl_nil]
        refine (metroFlagStep_other _ "C" _ (by decide) i).trans ?_
        refine (metroFlagStep_other _ "B" _ (by decide) i).trans ?_
        exact metroFlagStep_flag df "A" hmem i
      · intro i
        simp only [metroFlagStage, List.foldl_cons, List.foldl_nil]
        refine (metroFlagStep_other _ "C" _ (by decide) i).trans ?_
        refine (metroFlagStep_other _ "B" _ (by decide) i).trans ?_
        exact metroFlagStep_other df "A" _ (by decide) i
    · refine ⟨?_, ?_, ?_, ?_⟩
      · simp only [metroFlagStage, List.foldl_cons, List.foldl_nil]
        exact metroFlagStep_cols_mono _ _ _ (metroFlagStep_cols_mono _ _ _
          (metroFlagStep_cols_mono _ _ _ hmem))
      · simp only [metroFlagStage, List.foldl_cons, List.foldl_nil]
        exact metroFlagStep_cols_mono _ _ _ (metroFlagStep_flag_cols _ _
          (metroFlagStep_cols_mono _ _ _ hmem))
      · intro i
        simp only [metroFlagStage, List.foldl_cons, List.foldl_nil]
        refine (metroFlagStep_other _ "C" _ (by decide) i).trans ?_
        refine (metroFlagStep_flag _ "B" (metroFlagStep_cols_mono _ _ _ hmem) i).trans ?_
        exact metroFlagStep_read df "A" _ (by decide) (cellFlagLe 1000) i
      · intro i
        simp only [metroFlagStage, List.foldl_cons, List.foldl_nil]
        refine (metroFlagStep_other _ "C" _ (by decide) i).trans ?_
        refine (metroFlagStep_other _ "B" _ (by decide) i).trans ?_
        exact metroFlagStep_other df "A" _ (by decide) i
    · refine ⟨?_, ?_, ?_, ?_⟩
      · simp only [metroFlagStage, List.foldl_cons, List.foldl_nil]
        exact metroFlagStep_cols_mono _ _ _ (metroFlagStep_cols_mono _ _ _
          (metroFlagStep_cols_mono _ _ _ hmem))
      · simp only [metroFlagStage, List.foldl_cons, List.foldl_nil]
        exact metroFlagStep_flag_cols _ _ (metroFlagStep_cols_mono _ _ _
          (metroFlagStep_cols_mono _ _ _ hmem))
      · intro i
        simp only [metroFlagStage, List.foldl_cons, List.foldl_nil]
        refine (metroFlagStep_flag _ "C" (metroFlagStep_cols_mono _ _ _
          (metroFlagStep_cols_mono _ _ _ hmem)) i).trans ?_
        refine (metroFlagStep_read _ "B" _ (by decide) (cellFlagLe 1000) i).trans ?_
        exact metroFlagStep_read df "A" _ (by decide) (cellFlagLe 1000) i
      · intro i
        simp only [metroFlagStage, List.foldl_cons, List.foldl_nil]
        refine (metroFlagStep_other _ "C" _ (by decide) i).trans ?_
        refine (metroFlagStep_other _ "B" _ (by decide) i).trans ?_
        exact metroFlagStep_other df "A" _ (by decide) i
  · intro r
    by_cases h : r ≤ 500 <;> simp [cellFlagLe, h]
  · intro r
    by_cases h : r ≤ 500 <;> simp [cellFlagLe, h]
  · intro r
    by_cases h : r ≤ 1000 <;> simp [cellFlagLe, h]
  · intro r
    by_cases h : r ≤ 1000 <;> simp [cellFlagLe, h]
  · norm_num [cellFlagLe]
  · norm_num [cellFlagLe]
  · norm_num [cellFlagLe]
  · norm_num [cellFlagLe]

/-- C8 witness: one `poi_*` column with a missing distance, and one metro
distance column with a missing distance. -/
theorem C8_proximity_flags_witness :
    "500m_park" ∈ (poiStage ⟨["poi_park"], [[("poi_park", PyVal.none)]]⟩).cols ∧
    ((poiStage ⟨["poi_park"], [[("poi_park", PyVal.none)]]⟩).rows[0]?).map
      (fun r => getCell r "500m_park") = some (PyVal.int 0) ∧
    ((metroFlagStage ⟨["metro_dist_A"], [[("metro_dist_A", PyVal.none)]]⟩).rows[0]?).map
      (fun r => getCell r "1000m_dist_A") = some (PyVal.int 0) := by
  have h1 := C8_proximity_flags.1 ⟨["poi_park"], [[("poi_park", PyVal.none)]]⟩ "poi_park"
    (List.mem_singleton.mpr rfl) (by decide)
    (fun c' h' _ _ => List.mem_singleton.mp h')
  have h2 := C8_proximity_flags.2.1 ⟨["metro_dist_A"], [[("metro_dist_A", PyVal.none)]]⟩ "A"
    (Or.inl rfl) (List.mem_singleton.mpr rfl)
  exact ⟨h1.1, h1.2.2.2 0, h2.2.2.1 0⟩

theorem metroAssignRow_read_A (metro : List Station) (r : Row) :
    getCell (metroAssignRow metro r) "metro_dist_A" =
      optReal (get_metro_distances r metro).dist_A := by
  unfold metroAssignRow
  rw [getCell_setCell_ne _ _ _ _ (by decide), getCell_setCell_ne _ _ _ _ (by decide),
    getCell_setCell_ne _ _ _ _ (by decide), getCell_setCell_self]

theorem metroAssignRow_read_B (metro : List Station) (r : Row) :
    getCell (metroAssignRow metro r) "metro_dist_B" =
      optReal (get_metro_distances r metro).dist_B := by
  unfold metroAssignRow
  rw [getCell_setCell_ne _ _ _ _ (by decide), getCell_setCell_ne _ _ _ _ (by decide),
    getCell_setCell_self]

theorem metroAssignRow_read_C (metro : List Station) (r : Row) :
    getCell (metroAssignRow metro r) "metro_dist_C" =
      optReal (get_metro_distances r metro).dist_C := by
  unfold metroAssignRow
  rw [getCell_setCell_ne _ _ _ _ (by decide), getCell_setCell_self]

/-- C10: a listing with missing coordinates gets missing raw metro distance
cells, whose 1000 m proximity flags nevertheless evaluate to 0 (a `NaN`
comparison is false), exactly like a listing farther than 1000 m from every
station — whose raw cells, by contrast, hold real distances above 1000. -/
theorem C10_missing_coords_flag_zero (metro : List Station) (row : Row)
    (h : cellNA (getCell row "latitude") = true ∨ cellNA (getCell row "longitude") = true) :
    (getCell (metroAssignRow metro row) "metro_dist_A" = PyVal.none ∧
     getCell (metroAssignRow metro row) "metro_dist_B" = PyVal.none ∧
     getCell (metroAssignRow metro row) "metro_dist_C" = PyVal.none) ∧
    (cellFlagLe 1000 (getCell (metroAssignRow metro row) "metro_dist_A") = .int 0 ∧
     cellFlagLe 1000 (getCell (metroAssignRow metro row) "metro_dist_B") = .int 0 ∧
     cellFlagLe 1000 (getCell (metroAssignRow metro row) "metro_dist_C") = .int 0) ∧
    (∀ (row' : Row) (lat lon : ℝ), getCell row' "latitude" = .real lat →
      getCell row' "longitude" = .real lon →
      (∀ s ∈ metro, 1000 < haversine lon lat s.lng s.lat) →
      ∀ l, l = "A" ∨ l = "B" ∨ l = "C" →
        (∃ d : ℝ, getCell (metroAssignRow metro row') ("metro_dist_" ++ l) = .real d ∧
          1000 < d) ∧
        cellFlagLe 1000 (getCell (metroAssignRow metro row') ("metro_dist_" ++ l)) =
          .int 0) := by
  have hmiss : get_metro_distances row metro =
      ⟨Option.none, Option.none, Option.none, Option.none⟩ := by
    unfold get_metro_distances
    rcases h with h | h <;> simp [h]
  refine ⟨⟨?_, ?_, ?_⟩, ⟨?_, ?_, ?_⟩, ?_⟩
  · rw [metroAssignRow_read_A, hmiss]; rfl
  · rw [metroAssignRow_read_B, hmiss]; rfl
  · rw [metroAssignRow_read_C, hmiss]; rfl
  · rw [metroAssignRow_read_A, hmiss]; rfl
  · rw [metroAssignRow_read_B, hmiss]; rfl
  · rw [metroAssignRow_read_C, hmiss]; rfl
  · intro row' lat lon hlat hlon hfar l hl
    have hres' : get_metro_distances row' metro =
        ⟨some ((metro.foldl (metroStep lat lon) initDistState).dist_A),
         some ((metro.foldl (metroStep lat lon) initDistState).dist_B),
         some ((metro.foldl (metroStep lat lon) initDistState).dist_C),
         (metro.foldl (metroStep lat lon) initDistState).nearest_name⟩ := by
      unfold get_metro_distances
      rw [hlat, hlon]
      rfl
    rcases hl with rfl | rfl | rfl
    · have hgt : 1000 < (metro.foldl (metroStep lat lon) initDistState).dist_A := by
        rw [fold_dist_A]
        refine foldLow_gt 1000 _ _ (by norm_num [initDistState]) ?_
        intro x hx
        obtain ⟨s, hsf, heq⟩ := List.mem_map.mp hx
        rw [← heq]
        exact hfar s (List.mem_filter.mp hsf).1
      have hng : ¬ (metro.foldl (metroStep lat lon) initDistState).dist_A ≤ 1000 :=
        not_le.mpr hgt
      have hcell : getCell (metroAssignRow metro row') ("metro_dist_" ++ "A") =
          PyVal.real ((metro.foldl (metroStep lat lon) initDistState).dist_A) := by
        show getCell (metroAssignRow metro row') "metro_dist_A" = _
        rw [metroAssignRow_read_A, hres']
        rfl
      refine ⟨⟨_, hcell, hgt⟩, ?_⟩
      rw [hcell]
      simp [cellFlagLe, hng]
    · have hgt : 1000 < (metro.foldl (metroStep lat lon) initDistState).dist_B := by
        rw [fold_dist_B]
        refine foldLow_gt 1000 _ _ (by norm_num [initDistState]) ?_
        intro x hx
        obtain ⟨s, hsf, heq⟩ := List.mem_map.mp hx
        rw [← heq]
        exact hfar s (List.mem_filter.mp hsf).1
      have hng : ¬ (metro.foldl (metroStep lat lon) initDistState).dist_B ≤ 1000 :=
        not_le.mpr hgt
      have hcell : getCell (metroAssignRow metro row') ("metro_dist_" ++ "B") =
          PyVal.real ((metro.foldl (metroStep lat lon) initDistState).dist_B) := by
        show getCell (metroAssignRow metro row') "metro_dist_B" = _
        rw [metroAssignRow_read_B, hres']
        rfl
      refine ⟨⟨_, hcell, hgt⟩, ?_⟩
      rw [hcell]
      simp [cellFlagLe, hng]
    · have hgt : 1000 < (metro.foldl (metroStep lat lon) initDistState).dist_C := by
        rw [fold_dist_C]
        refine foldLow_gt 1000 _ _ (by norm_num [initDistState]) ?_
        intro x hx
        obtain ⟨s, hsf, heq⟩ := List.mem_map.mp hx
        rw [← heq]
        exact hfar s (List.mem_filter.mp hsf).1
      have hng : ¬ (metro.foldl (metroStep lat lon) initDistState).dist_C ≤ 1000 :=
        not_le.mpr hgt
      have hcell : getCell (metroAssignRow metro row') ("metro_dist_" ++ "C") =
          PyVal.real ((metro.foldl (metroStep lat lon) initDistState).dist_C) := by
        show getCell (metroAssignRow metro row') "metro_dist_C" = _
        rw [metroAssignRow_read_C, hres']
        rfl
      refine ⟨⟨_, hcell, hgt⟩, ?_⟩
      rw [hcell]
      simp [cellFlagLe, hng]

/-- C10 witness: the empty station table and a row with no coordinates. -/
theorem C10_missing_coords_flag_zero_witness :
    getCell (metroAssignRow [] []) "metro_dist_A" = PyVal.none ∧
    cellFlagLe 1000 (getCell (metroAssignRow [] []) "metro_dist_A") = .int 0 := by
  have h := C10_missing_coords_flag_zero [] [] (Or.inl rfl)
  exact ⟨h.1.1, h.2.1.1⟩

/-! ### Record-parser lemmas -/

theorem detailsStep_eq (m : List (String × PyVal)) (item : PyVal) :
    detailsStep m item = (itemContrib item).map (fun c? =>
      match c? with
      | some c => updAssoc m c.1 c.2
      | Option.none => m) := by
  cases item with
  | dict kvs =>
    unfold detailsStep itemContrib
    by_cases ht : truthy (getItem (PyVal.dict kvs) "name") = true
    · rw [if_pos ht, if_pos ht]
      cases hfl : firstLabel (getItem (PyVal.dict kvs) "name") detailLabels with
      | error e => simp [hfl, Bind.bind, Except.bind, Except.map]
      | ok k? =>
        cases k? <;>
          simp [hfl, Bind.bind, Except.bind, Except.map, pure, Except.pure, Option.map]
    · rw [if_neg ht, if_neg ht]
      rfl
  | none => rfl
  | bool b => rfl
  | int n => rfl
  | real r => rfl
  | str s => rfl
  | list xs => rfl

theorem foldlM_detailsStep_eq : ∀ (items : List PyVal) (cs : List (String × PyVal))
    (m : List (String × PyVal)), contribList items = .ok cs →
    items.foldlM detailsStep m = .ok (applyContribs m cs) := by
  intro items
  induction items with
  | nil =>
    intro cs m h
    unfold contribList at h
    injection h with h
    subst h
    rfl
  | cons it rest ih =>
    intro cs m h
    unfold contribList at h
    cases hic : itemContrib it with
    | error e => rw [hic] at h; simp [Bind.bind, Except.bind] at h
    | ok c? =>
      rw [hic] at h
      cases hcl : contribList rest with
      | error e => rw [hcl] at h; simp [Bind.bind, Except.bind] at h
      | ok cs' =>
        rw [hcl] at h
        simp only [Bind.bind, Except.bind, pure, Except.pure, Except.ok.injEq] at h
        subst h
        show (do
          let m1 ← detailsStep m it
          rest.foldlM detailsStep m1) = _
        rw [detailsStep_eq, hic]
        cases c? with
        | none => exact ih cs' m hcl
        | some c => exact ih cs' (updAssoc m c.1 c.2) hcl

theorem lookupAssoc_updAssoc (m : List (String × PyVal)) (k : String) (v : PyVal)
    (k' : String) :
    lookupAssoc (updAssoc m k v) k' = if k = k' then some v else lookupAssoc m k' := by
  induction m with
  | nil =>
    unfold updAssoc
    rw [lookupAssoc_cons]
  | cons kv m ih =>
    unfold updAssoc
    by_cases h : kv.1 = k
    · rw [if_pos h, lookupAssoc_cons, lookupAssoc_cons]
      by_cases h' : k = k'
      · rw [if_pos h', if_pos h']
      · rw [if_neg h', if_neg h', if_neg (fun he : kv.1 = k' => h' (h.symm.trans he))]
    · rw [if_neg h, lookupAssoc_cons, lookupAssoc_cons, ih]
      by_cases h2 : kv.1 = k'
      · have hne : ¬ (k = k') := fun he => h (h2.trans he.symm)
        rw [if_pos h2, if_neg hne, if_pos h2]
      · rw [if_neg h2, if_neg h2]

theorem lookupAssoc_applyContribs : ∀ (cs m : List (String × PyVal)) (k : String),
    lookupAssoc (applyContribs m cs) k =
      match cs.reverse.find? (fun c => c.1 = k) with
      | some c => some c.2
      | Option.none => lookupAssoc m k := by
  intro cs
  induction cs with
  | nil => intro m k; rfl
  | cons c cs ih =>
    intro m k
    show lookupAssoc (applyContribs (updAssoc m c.1 c.2) cs) k = _
    rw [ih, List.reverse_cons, List.find?_append]
    cases hf : cs.reverse.find? (fun c => decide (c.1 = k)) with
    | some c' => simp [hf, Option.orElse]
    | none =>
      simp only [hf]
      rw [lookupAssoc_updAssoc]
      by_cases h : c.1 = k <;> simp [Option.orElse, List.find?, h]

/-- C2 amended: when the blob deserialises to a list of items whose writes
are `cs`, the resulting map is the writes replayed in order, so for every
label key the stored value is the LAST matching entry's value (standard dict
overwrite); within one entry the first matching label of the chain wins,
which is encoded in `itemContrib`. -/
theorem C2_last_match_wins (le : PyVal → Except Unit PyVal) (x : PyVal) (items : List PyVal)
    (cs : List (String × PyVal)) (h1 : safe_eval le x = some (.list items))
    (h2 : contribList items = .ok cs) :
    extract_details le x = .ok (applyContribs [] cs) ∧
    (∀ k, lookupAssoc (applyContribs [] cs) k =
      (cs.reverse.find? (fun c => c.1 = k)).map Prod.snd) := by
  constructor
  · unfold extract_details
    rw [h1]
    exact foldlM_detailsStep_eq items cs [] h2
  · intro k
    rw [lookupAssoc_applyContribs]
    cases hf : cs.reverse.find? (fun c => decide (c.1 = k)) <;> simp [hf]
    rfl

/-- C2 amended witness: two entries matching the usable-area label; the
stored value is the second entry's. -/
theorem C2_last_match_wins_witness :
    extract_details
      (fun _ => Except.ok (PyVal.list
        [PyVal.dict [(PyVal.str "name", PyVal.str "Užitná plocha"),
                     (PyVal.str "value", PyVal.int 3)],
         PyVal.dict [(PyVal.str "name", PyVal.str "Užitná plocha 2"),
                     (PyVal.str "value", PyVal.int 4)]]))
      (PyVal.str "x") =
      .ok (applyContribs [] [("usable_area", PyVal.int 3), ("usable_area", PyVal.int 4)]) ∧
    lookupAssoc (applyContribs []
      [("usable_area", PyVal.int 3), ("usable_area", PyVal.int 4)]) "usable_area" =
      some (PyVal.int 4) := by
  have h := C2_last_match_wins
    (fun _ => Except.ok (PyVal.list
      [PyVal.dict [(PyVal.str "name", PyVal.str "Užitná plocha"),
                   (PyVal.str "value", PyVal.int 3)],
       PyVal.dict [(PyVal.str "name", PyVal.str "Užitná plocha 2"),
                   (PyVal.str "value", PyVal.int 4)]]))
    (PyVal.str "x")
    [PyVal.dict [(PyVal.str "name", PyVal.str "Užitná plocha"),
                 (PyVal.str "value", PyVal.int 3)],
     PyVal.dict [(PyVal.str "name", PyVal.str "Užitná plocha 2"),
                 (PyVal.str "value", PyVal.int 4)]]
    [("usable_area", PyVal.int 3), ("usable_area", PyVal.int 4)] rfl rfl
  exact ⟨h.1, (h.2 "usable_area").trans rfl⟩

theorem detailsStep_dict (m : List (String × PyVal)) (kvs : List (PyVal × PyVal)) :
    detailsStep m (PyVal.dict kvs) =
      if truthy (getItem (PyVal.dict kvs) "name") then do
        let k? ← firstLabel (getItem (PyVal.dict kvs) "name") detailLabels
        pure (match k? with
          | some k => updAssoc m k (getItem (PyVal.dict kvs) "value")
          | Option.none => m)
      else pure m := rfl

theorem pyIn_safe (lab : String) (v : PyVal) (h : isContainerOrStr v = true) :
    ∃ b, pyIn lab v = .ok b := by
  cases v with
  | str s => exact ⟨_, rfl⟩
  | list xs => exact ⟨_, rfl⟩
  | dict kvs => exact ⟨_, rfl⟩
  | none => cases h
  | bool b => cases h
  | int n => cases h
  | real r => cases h

theorem firstLabel_safe : ∀ (labs : List (String × String)) (v : PyVal),
    isContainerOrStr v = true → ∃ k?, firstLabel v labs = .ok k? := by
  intro labs
  induction labs with
  | nil => intro v _; exact ⟨Option.none, rfl⟩
  | cons lk rest ih =>
    intro v h
    obtain ⟨b, hb⟩ := pyIn_safe lk.1 v h
    obtain ⟨k?, hk⟩ := ih v h
    cases b with
    | true =>
      refine ⟨some lk.2, ?_⟩
      show (do
        let b ← pyIn lk.1 v
        if b then pure (some lk.2) else firstLabel v rest) = _
      rw [hb]
      rfl
    | false =>
      refine ⟨k?, ?_⟩
      show (do
        let b ← pyIn lk.1 v
        if b then pure (some lk.2) else firstLabel v rest) = _
      rw [hb]
      exact hk

theorem detailsStep_safe (item : PyVal) (h : nameSafe (getItem item "name")) :
    ∀ m, ∃ m', detailsStep m item = .ok m' := by
  intro m
  cases item with
  | dict kvs =>
    by_cases ht : truthy (getItem (PyVal.dict kvs) "name") = true
    · rcases h with hfals | hcont
      · rw [ht] at hfals; cases hfals
      · obtain ⟨k?, hk⟩ := firstLabel_safe detailLabels _ hcont
        cases k? with
        | some k =>
          refine ⟨updAssoc m k (getItem (PyVal.dict kvs) "value"), ?_⟩
          rw [detailsStep_dict, if_pos ht, hk]
          rfl
        | none =>
          refine ⟨m, ?_⟩
          rw [detailsStep_dict, if_pos ht, hk]
          rfl
    · refine ⟨m, ?_⟩
      rw [detailsStep_dict, if_neg ht]
      rfl
  | none => exact ⟨m, rfl⟩
  | bool b => exact ⟨m, rfl⟩
  | int n => exact ⟨m, rfl⟩
  | real r => exact ⟨m, rfl⟩
  | str s => exact ⟨m, rfl⟩
  | list xs => exact ⟨m, rfl⟩

theorem foldlM_detailsStep_safe : ∀ (items : List PyVal) (m : List (String × PyVal)),
    (∀ it ∈ items, nameSafe (getItem it "name")) →
    ∃ m', items.foldlM detailsStep m = .ok m' := by
  intro items
  induction items with
  | nil => intro m _; exact ⟨m, rfl⟩
  | cons it rest ih =>
    intro m h
    obtain ⟨m1, hm1⟩ := detailsStep_safe it (h it (List.mem_cons_self _ _)) m
    obtain ⟨m', hm'⟩ := ih m1 (fun it' h' => h it' (List.mem_cons_of_mem _ h'))
    refine ⟨m', ?_⟩
    show (do
      let m1 ← detailsStep m it
      rest.foldlM detailsStep m1) = _
    rw [hm1]
    exact hm'

/-- C4 amended: a blob that does not deserialise to a list yields the empty
mapping; non-mapping items and items with falsy names are skipped (the step
returns the map unchanged); and the extractor returns without raising
whenever every item's name is falsy or a string/list/dict — the exception of
the counterexample needs a truthy non-container name. -/
theorem C4_fail_safe :
    (∀ (le : PyVal → Except Unit PyVal) (x : PyVal),
      (∀ items, safe_eval le x ≠ some (.list items)) → extract_details le x = .ok []) ∧
    (∀ (m : List (String × PyVal)) (item : PyVal),
      ((∀ kvs, item ≠ PyVal.dict kvs) ∨ truthy (getItem item "name") = false) →
      detailsStep m item = .ok m) ∧
    (∀ (le : PyVal → Except Unit PyVal) (x : PyVal) (items : List PyVal),
      safe_eval le x = some (.list items) →
      (∀ it ∈ items, nameSafe (getItem it "name")) →
      ∃ m, extract_details le x = .ok m) := by
  refine ⟨?_, ?_, ?_⟩
  · intro le x h
    unfold extract_details
    cases hse : safe_eval le x with
    | none => rfl
    | some v =>
      cases v with
      | list items => exact absurd hse (h items)
      | none => rfl
      | bool b => rfl
      | int n => rfl
      | real r => rfl
      | str s => rfl
      | dict kvs => rfl
  · intro m item h
    rcases h with h | h
    · cases item with
      | dict kvs => exact absurd rfl (h kvs)
      | none => rfl
      | bool b => rfl
      | int n => rfl
      | real r => rfl
      | str s => rfl
      | list xs => rfl
    · cases item with
      | dict kvs =>
        rw [detailsStep_dict, if_neg (by simp [h])]
        rfl
      | none => rfl
      | bool b => rfl
      | int n => rfl
      | real r => rfl
      | str s => rfl
      | list xs => rfl
  · intro le x items hse hsafe
    obtain ⟨m, hm⟩ := foldlM_detailsStep_safe items [] hsafe
    refine ⟨m, ?_⟩
    unfold extract_details
    rw [hse]
    exact hm

/-- C4 amended witness: a failing evaluator yields the empty mapping, a
non-mapping item is skipped, and a well-formed blob extracts without
raising. -/
theorem C4_fail_safe_witness :
    extract_details (fun _ => Except.error ()) (PyVal.int 0) = .ok [] ∧
    detailsStep [] (PyVal.int 5) = .ok [] ∧
    (∃ m, extract_details
      (fun _ => Except.ok (PyVal.list [PyVal.dict [(PyVal.str "name", PyVal.str "Terasa"),
        (PyVal.str "value", PyVal.bool true)]]))
      (PyVal.str "x") = .ok m) := by
  refine ⟨?_, ?_, ?_⟩
  · exact C4_fail_safe.1 (fun _ => Except.error ()) (PyVal.int 0)
      (fun items h => Option.noConfusion h)
  · exact C4_fail_safe.2.1 [] (PyVal.int 5) (Or.inl (fun kvs h => PyVal.noConfusion h))
  · exact C4_fail_safe.2.2 _ (PyVal.str "x") _ rfl
      (fun it hit => by
        rw [List.mem_singleton.mp hit]
        exact Or.inr rfl)

/-- C9: a missing raw-data file or metro file aborts the run with a typed
`FileNotFoundError` naming that path; a loaded listing table without the
`price_czk` column aborts with a typed `ValueError` naming that column; in
every failing case no output file is written. -/
theorem C9_typed_errors (raw_data_path metro_path : String) (output_path : Option String)
    (fsRaw : String → Option Df) (fsMetro : String → Option (List Station))
    (le : PyVal → Except Unit PyVal) :
    (fsRaw raw_data_path = Option.none →
      process_raw_data raw_data_path metro_path output_path fsRaw fsMetro le =
        .error (.fileNotFound raw_data_path) ∧
      writesOf (process_raw_data raw_data_path metro_path output_path fsRaw fsMetro le) =
        []) ∧
    (∀ df0, fsRaw raw_data_path = some df0 → fsMetro metro_path = Option.none →
      process_raw_data raw_data_path metro_path output_path fsRaw fsMetro le =
        .error (.fileNotFound metro_path) ∧
      writesOf (process_raw_data raw_data_path metro_path output_path fsRaw fsMetro le) =
        []) ∧
    (∀ df0 metro, fsRaw raw_data_path = some df0 → fsMetro metro_path = some metro →
      "price_czk" ∉ df0.cols →
      process_raw_data raw_data_path metro_path output_path fsRaw fsMetro le =
        .error (.missingColumn "price_czk") ∧
      writesOf (process_raw_data raw_data_path metro_path output_path fsRaw fsMetro le) =
        []) := by
  refine ⟨?_, ?_, ?_⟩
  · intro h
    have hp : process_raw_data raw_data_path metro_path output_path fsRaw fsMetro le =
        .error (.fileNotFound raw_data_path) := by
      unfold process_raw_data
      rw [h]
    exact ⟨hp, by rw [hp]; rfl⟩
  · intro df0 h0 h
    have hp : process_raw_data raw_data_path metro_path output_path fsRaw fsMetro le =
        .error (.fileNotFound metro_path) := by
      unfold process_raw_data
      rw [h0, h]
    exact ⟨hp, by rw [hp]; rfl⟩
  · intro df0 metro h0 hm hc
    have hp : process_raw_data raw_data_path metro_path output_path fsRaw fsMetro le =
        .error (.missingColumn "price_czk") := by
      unfold process_raw_data
      rw [h0, hm]
      show (if df0.cols.contains "price_czk" = true then
          match pipelineBody le metro df0 with
          | Except.ok dfF => Except.ok (dfF, (output_path.map (fun p => (p, dfF))).toList)
          | Except.error _ => Except.error PErr.typeError
        else Except.error (PErr.missingColumn "price_czk")) =
        (Except.error (PErr.missingColumn "price_czk") :
          Except PErr (Df × List (String × Df)))
      rw [(strContains_false_iff df0.cols "price_czk").mpr hc]
      rfl
    exact ⟨hp, by rw [hp]; rfl⟩

/-- C9 witness: a missing raw file, and a loaded table without the price
column. -/
theorem C9_typed_errors_witness :
    process_raw_data "data/data_estate.csv" "data/metro_stations.csv" (some "out.csv")
      (fun _ => Option.none) (fun _ => Option.none) (fun _ => Except.error ()) =
      .error (.fileNotFound "data/data_estate.csv") ∧
    writesOf (process_raw_data "data/data_estate.csv" "data/metro_stations.csv"
      (some "out.csv") (fun _ => Option.none) (fun _ => Option.none)
      (fun _ => Except.error ())) = [] ∧
    process_raw_data "a.csv" "b.csv" Option.none (fun _ => some ⟨["x"], []⟩)
      (fun _ => some []) (fun _ => Except.error ()) =
      .error (.missingColumn "price_czk") := by
  have h1 := (C9_typed_errors "data/data_estate.csv" "data/metro_stations.csv"
    (some "out.csv") (fun _ => Option.none) (fun _ => Option.none)
    (fun _ => Except.error ())).1 rfl
  have h3 := (C9_typed_errors "a.csv" "b.csv" Option.none (fun _ => some ⟨["x"], []⟩)
    (fun _ => some []) (fun _ => Except.error ())).2.2 ⟨["x"], []⟩ [] rfl rfl (by decide)
  exact ⟨h1.1, h1.2, h3.1⟩

/-! ### Orchestrator row-correspondence machinery -/

theorem mapME_ok_map_eq {α β γ : Type} (f : α → Except Unit β) (l : List α) (l' : List β)
    (h : mapME f l = .ok l') (g : β → γ) (g' : α → γ)
    (hg : ∀ a b, f a = .ok b → g b = g' a) (i : ℕ) :
    (l'[i]?).map g = (l[i]?).map g' := by
  obtain ⟨hlen, hget⟩ := mapME_ok_spec f l l' h
  by_cases hi : i < l.length
  · have hi' : i < l'.length := by omega
    rw [List.getElem?_eq_getElem hi, List.getElem?_eq_getElem hi']
    exact congrArg some (hg _ _ (hget i hi hi'))
  · rw [List.getElem?_eq_none (not_lt.mp hi),
      List.getElem?_eq_none (by omega : l'.length ≤ i)]
    rfl

theorem mapME_ok_mem {α β : Type} : ∀ (f : α → Except Unit β) (l : List α) (l' : List β),
    mapME f l = .ok l' → ∀ b ∈ l', ∃ a ∈ l, f a = .ok b := by
  intro f l
  induction l with
  | nil =>
    intro l' h b hb
    unfold mapME at h
    injection h with h
    subst h
    cases hb
  | cons a rest ih =>
    intro l' h b hb
    unfold mapME at h
    cases hfa : f a with
    | error e => rw [hfa] at h; simp [Bind.bind, Except.bind] at h
    | ok b0 =>
      rw [hfa] at h
      cases hml : mapME f rest with
      | error e => rw [hml] at h; simp [Bind.bind, Except.bind] at h
      | ok bs =>
        rw [hml] at h
        simp only [Bind.bind, Except.bind, pure, Except.pure, Except.ok.injEq] at h
        subst h
        rcases List.mem_cons.mp hb with rfl | hb'
        · exact ⟨a, List.mem_cons_self _ _, hfa⟩
        · obtain ⟨a', ha', hfa'⟩ := ih bs hml b hb'
          exact ⟨a', List.mem_cons_of_mem _ ha', hfa'⟩

theorem length_eq_of_map_getElem? {α β γ : Type} (l' : List β) (l : List α)
    (g : β → γ) (g' : α → γ)
    (h : ∀ i : ℕ, (l'[i]?).map g = (l[i]?).map g') : l'.length = l.length := by
  have hs : ∀ i : ℕ, (l'[i]?).isSome = (l[i]?).isSome := by
    intro i
    have hx := congrArg Option.isSome (h i)
    simpa using hx
  rcases Nat.lt_or_ge l'.length l.length with hlt | hge
  · exfalso
    have h1 := hs l'.length
    rw [List.getElem?_eq_none (le_refl _), List.getElem?_eq_getElem hlt] at h1
    simp at h1
  · rcases Nat.lt_or_ge l.length l'.length with hlt' | hge'
    · exfalso
      have h1 := hs l.length
      rw [List.getElem?_eq_getElem hlt', List.getElem?_eq_none (le_refl _)] at h1
      simp at h1
    · omega

theorem map_read_eq {α γ : Type} (F : α → α) (l : List α) (g g' : α → γ)
    (hg : ∀ a, g (F a) = g' a) (i : ℕ) :
    ((l.map F)[i]?).map g = (l[i]?).map g' := by
  rw [List.getElem?_map]
  cases l[i]? with
  | none => rfl
  | some a => exact congrArg some (hg a)

theorem setColumn_read (d : Df) (n : String) (f : Row → PyVal) (k : String) (hk : k ≠ n)
    (i : ℕ) :
    ((setColumn d n f).rows[i]?).map (fun r => getCell r k) =
      (d.rows[i]?).map (fun r => getCell r k) := by
  show ((d.rows.map _)[i]?).map _ = _
  exact map_read_eq (fun r => setCell r n (f r)) d.rows (fun r => getCell r k)
    (fun r => getCell r k) (fun r => getCell_setCell_ne r n (f r) k hk) i

theorem exceptBind_ok_destruct {α β : Type} (x : Except Unit α) (g : α → Except Unit β)
    (b : β) (h : (x >>= g) = .ok b) : ∃ a, x = .ok a ∧ g a = .ok b := by
  cases x with
  | error e => simp [Bind.bind, Except.bind] at h
  | ok a => exact ⟨a, rfl, by simpa [Bind.bind, Except.bind] using h⟩

theorem setColumnM_ok (d : Df) (n : String) (f : Row → Except Unit PyVal) (d' : Df)
    (h : setColumnM d n f = .ok d') :
    mapME (fun r => do pure (setCell r n (← f r))) d.rows = .ok d'.rows := by
  unfold setColumnM at h
  cases hmap : mapME (fun r => do pure (setCell r n (← f r))) d.rows with
  | error e => rw [hmap] at h; simp [Bind.bind, Except.bind] at h
  | ok rows' =>
    rw [hmap] at h
    simp only [Bind.bind, Except.bind, pure, Except.pure, Except.ok.injEq] at h
    subst h
    rfl

theorem setColumnM_read (d : Df) (n : String) (f : Row → Except Unit PyVal) (d' : Df)
    (h : setColumnM d n f = .ok d') (k : String) (hk : k ≠ n) (i : ℕ) :
    (d'.rows[i]?).map (fun r => getCell r k) = (d.rows[i]?).map (fun r => getCell r k) := by
  refine mapME_ok_map_eq _ _ _ (setColumnM_ok d n f d' h) _ _ ?_ i
  intro a b hab
  cases hfa : f a with
  | error e => rw [hfa] at hab; simp [Bind.bind, Except.bind] at hab
  | ok v =>
    rw [hfa] at hab
    simp only [Bind.bind, Except.bind, pure, Except.pure, Except.ok.injEq] at hab
    subst hab
    exact getCell_setCell_ne _ _ _ _ hk

theorem condColM_read (d : Df) (c : String) (f : Row → Except Unit PyVal) (d' : Df)
    (h : (if d.cols.contains c = true then setColumnM d c f else pure d) = .ok d')
    (k : String) (hk : k ≠ c) (i : ℕ) :
    (d'.rows[i]?).map (fun r => getCell r k) = (d.rows[i]?).map (fun r => getCell r k) := by
  split_ifs at h with hc
  · exact setColumnM_read d c f d' h k hk i
  · simp only [pure, Except.pure, Except.ok.injEq] at h
    subst h
    rfl

theorem getElem?_zip {α β : Type} : ∀ (l : List α) (l' : List β) (i : ℕ),
    (l.zip l')[i]? = match l[i]?, l'[i]? with
      | some a, some b => some (a, b)
      | _, _ => Option.none := by
  intro l
  induction l with
  | nil =>
    intro l' i
    cases l'[i]? <;> rfl
  | cons a l ih =>
    intro l' i
    cases l' with
    | nil =>
      rw [List.zip_nil_right]
      simp only [List.getElem?_nil]
      cases (a :: l)[i]? <;> rfl
    | cons b l' =>
      cases i with
      | zero => simp
      | succ j =>
        rw [List.zip_cons_cons]
        simp only [List.getElem?_cons_succ]
        exact ih l' j

theorem updAssoc_mem : ∀ (m : List (String × PyVal)) (k : String) (v : PyVal)
    (kv : String × PyVal), kv ∈ updAssoc m k v → kv ∈ m ∨ kv.1 = k := by
  intro m
  induction m with
  | nil =>
    intro k v kv h
    rw [List.mem_singleton.mp h]
    exact Or.inr rfl
  | cons kv0 m ih =>
    intro k v kv h
    unfold updAssoc at h
    split_ifs at h with h0
    · rcases List.mem_cons.mp h with rfl | h'
      · exact Or.inr rfl
      · exact Or.inl (List.mem_cons_of_mem _ h')
    · rcases List.mem_cons.mp h with rfl | h'
      · exact Or.inl (List.mem_cons_self _ _)
      · rcases ih k v kv h' with h'' | h''
        · exact Or.inl (List.mem_cons_of_mem _ h'')
        · exact Or.inr h''

theorem firstLabel_key : ∀ (labs : List (String × String)) (v : PyVal) (k : String),
    firstLabel v labs = .ok (some k) → k ∈ labs.map Prod.snd := by
  intro labs
  induction labs with
  | nil =>
    intro v k h
    injection h with h
    cases h
  | cons lk rest ih =>
    intro v k h
    have h' : (do
      let b ← pyIn lk.1 v
      if b then pure (some lk.2) else firstLabel v rest) = Except.ok (some k) := h
    cases hb : pyIn lk.1 v with
    | error e => rw [hb] at h'; simp [Bind.bind, Except.bind] at h'
    | ok b =>
      rw [hb] at h'
      cases b with
      | true =>
        simp only [Bind.bind, Except.bind, if_true, pure, Except.pure,
          Except.ok.injEq, Option.some.injEq] at h'
        rw [List.map_cons]
        exact h' ▸ List.mem_cons_self _ _
      | false =>
        have h'' : firstLabel v rest = .ok (some k) := h'
        rw [List.map_cons]
        exact List.mem_cons_of_mem _ (ih v k h'')

theorem itemContrib_dict (kvs : List (PyVal × PyVal)) :
    itemContrib (PyVal.dict kvs) =
      if truthy (getItem (PyVal.dict kvs) "name") then do
        let k? ← firstLabel (getItem (PyVal.dict kvs) "name") detailLabels
        pure (k?.map (fun k => (k, getItem (PyVal.dict kvs) "value")))
      else pure Option.none := rfl

theorem itemContrib_key (item : PyVal) (k : String) (val : PyVal)
    (h : itemContrib item = .ok (some (k, val))) : k ∈ detailLabels.map Prod.snd := by
  cases item with
  | dict kvs =>
    rw [itemContrib_dict] at h
    split_ifs at h with ht
    · cases hfl : firstLabel (getItem (PyVal.dict kvs) "name") detailLabels with
      | error e => rw [hfl] at h; simp [Bind.bind, Except.bind] at h
      | ok k? =>
        rw [hfl] at h
        simp only [Bind.bind, Except.bind, pure, Except.pure, Except.ok.injEq] at h
        cases k? with
        | none => simp [Option.map] at h
        | some k0 =>
          simp only [Option.map, Option.some.injEq, Prod.mk.injEq] at h
          rw [← h.1]
          exact firstLabel_key _ _ _ hfl
    · simp [pure, Except.pure] at h
  | none => simp [itemContrib, pure, Except.pure] at h
  | bool b => simp [itemContrib, pure, Except.pure] at h
  | int n => simp [itemContrib, pure, Except.pure] at h
  | real r => simp [itemContrib, pure, Except.pure] at h
  | str s => simp [itemContrib, pure, Except.pure] at h
  | list xs => simp [itemContrib, pure, Except.pure] at h

theorem detailsStep_key (m m' : List (String × PyVal)) (item : PyVal)
    (h : detailsStep m item = .ok m') (kv : String × PyVal) (hkv : kv ∈ m') :
    kv ∈ m ∨ kv.1 ∈ detailLabels.map Prod.snd := by
  rw [detailsStep_eq] at h
  cases hic : itemContrib item with
  | error e => rw [hic] at h; simp [Except.map] at h
  | ok c? =>
    rw [hic] at h
    simp only [Except.map, Except.ok.injEq] at h
    subst h
    cases c? with
    | none => exact Or.inl hkv
    | some c =>
      rcases updAssoc_mem m c.1 c.2 kv hkv with h' | h'
      · exact Or.inl h'
      · exact Or.inr (h' ▸ itemContrib_key item c.1 c.2 hic)

theorem foldlM_keys : ∀ (items : List PyVal) (m0 m : List (String × PyVal)),
    items.foldlM detailsStep m0 = .ok m →
    ∀ kv ∈ m, kv ∈ m0 ∨ kv.1 ∈ detailLabels.map Prod.snd := by
  intro items
  induction items with
  | nil =>
    intro m0 m h kv hkv
    have h' : (Except.ok m0 : Except Unit (List (String × PyVal))) = .ok m := h
    injection h' with h'
    subst h'
    exact Or.inl hkv
  | cons it rest ih =>
    intro m0 m h kv hkv
    have h' : (do
      let m1 ← detailsStep m0 it
      rest.foldlM detailsStep m1) = .ok m := h
    obtain ⟨m1, hstep, hrest⟩ := exceptBind_ok_destruct _ _ _ h'
    rcases ih m1 m hrest kv hkv with h'' | h''
    · exact detailsStep_key m0 m1 it hstep kv h''
    · exact Or.inr h''

theorem extract_details_keys (le : PyVal → Except Unit PyVal) (x : PyVal)
    (m : List (String × PyVal)) (h : extract_details le x = .ok m) :
    ∀ kv ∈ m, kv.1 ∈ detailLabels.map Prod.snd := by
  intro kv hkv
  unfold extract_details at h
  cases hse : safe_eval le x with
  | none =>
    rw [hse] at h
    have h' : (Except.ok [] : Except Unit (List (String × PyVal))) = .ok m := h
    injection h' with h'
    subst h'
    cases hkv
  | some v =>
    rw [hse] at h
    cases v with
    | list items =>
      have h' : items.foldlM detailsStep [] = .ok m := h
      rcases foldlM_keys items [] m h' kv hkv with h'' | h''
      · cases h''
      · exact h''
    | none =>
      have h' : (Except.ok [] : Except Unit (List (String × PyVal))) = .ok m := h
      injection h' with h'
      subst h'
      cases hkv
    | bool b =>
      have h' : (Except.ok [] : Except Unit (List (String × PyVal))) = .ok m := h
      injection h' with h'
      subst h'
      cases hkv
    | int n =>
      have h' : (Except.ok [] : Except Unit (List (String × PyVal))) = .ok m := h
      injection h' with h'
      subst h'
      cases hkv
    | real r =>
      have h' : (Except.ok [] : Except Unit (List (String × PyVal))) = .ok m := h
      injection h' with h'
      subst h'
      cases hkv
    | str s =>
      have h' : (Except.ok [] : Except Unit (List (String × PyVal))) = .ok m := h
      injection h' with h'
      subst h'
      cases hkv
    | dict kvs =>
      have h' : (Except.ok [] : Except Unit (List (String × PyVal))) = .ok m := h
      injection h' with h'
      subst h'
      cases hkv

theorem dedupStr_aux : ∀ (l acc : List String) (x : String),
    x ∈ l.foldl (fun acc s => if acc.contains s then acc else acc ++ [s]) acc →
    x ∈ acc ∨ x ∈ l := by
  intro l
  induction l with
  | nil => intro acc x h; exact Or.inl h
  | cons s l ih =>
    intro acc x h
    rw [List.foldl_cons] at h
    rcases ih _ x h with h' | h'
    · split_ifs at h' with hc
      · exact Or.inl h'
      · rcases List.mem_append.mp h' with h'' | h''
        · exact Or.inl h''
        · rw [List.mem_singleton.mp h'']
          exact Or.inr (List.mem_cons_self _ _)
    · exact Or.inr (List.mem_cons_of_mem _ h')

theorem dedupStr_sub (l : List String) (x : String) (h : x ∈ dedupStr l) : x ∈ l := by
  rcases dedupStr_aux l [] x h with h' | h'
  · cases h'
  · exact h'

theorem detailColsOf_keys (le : PyVal → Except Unit PyVal) (rows : List Row)
    (exs : List (List (String × PyVal)))
    (h : mapME (fun r => extract_details le (getCell r "detail")) rows = .ok exs) :
    ∀ k ∈ detailColsOf exs, k ∈ detailLabels.map Prod.snd := by
  intro k hk
  have h1 := dedupStr_sub _ _ hk
  rw [List.mem_flatten] at h1
  obtain ⟨s, hs, hks⟩ := h1
  obtain ⟨ex, hex, hexeq⟩ := List.mem_map.mp hs
  rw [← hexeq] at hks
  obtain ⟨kv, hkv, hkveq⟩ := List.mem_map.mp hks
  obtain ⟨r, _, hr⟩ := mapME_ok_mem _ rows exs h ex hex
  rw [← hkveq]
  exact extract_details_keys le _ ex hr kv hkv

theorem replPoi_head (c : String) (h : strStarts c "poi_" = true) :
    (strReplaceAll c "poi_" "500m_").data.head? = some '5' := by
  rw [replPoi_data c h]
  rfl

theorem replPoi_ne_of_head (c x : String) (h : strStarts c "poi_" = true)
    (hx : x.data.head? ≠ some '5') : strReplaceAll c "poi_" "500m_" ≠ x := by
  intro he
  exact hx (he ▸ replPoi_head c h)

theorem dropColumns_read (d : Df) (cs : List String) (k : String)
    (hk : cs.contains k = false) (i : ℕ) :
    ((dropColumns d cs).rows[i]?).map (fun r => getCell r k) =
      (d.rows[i]?).map (fun r => getCell r k) := by
  show ((d.rows.map _)[i]?).map _ = _
  exact map_read_eq (fun r => r.filter (fun kv => !cs.contains kv.1)) d.rows
    (fun r => getCell r k) (fun r => getCell r k)
    (fun r => getCell_filterKey r (fun k' => !cs.contains k') k
      (show (!cs.contains k) = true by rw [hk]; rfl)) i

theorem localityStage_read (le : PyVal → Except Unit PyVal) (d d' : Df)
    (h : localityStage le d = .ok d') (k : String)
    (h1 : k ≠ "locality_dict") (h2 : k ≠ "city") (h3 : k ≠ "district") (h4 : k ≠ "lat")
    (h5 : k ≠ "lon") (i : ℕ) :
    (d'.rows[i]?).map (fun r => getCell r k) =
      (d.rows[i]?).map (fun r => getCell r k) := by
  unfold localityStage at h
  split_ifs at h with hc
  · injection h with h
    rw [← h]
    refine (setColumn_read _ _ _ _ h5 i).trans ?_
    refine (setColumn_read _ _ _ _ h4 i).trans ?_
    refine (setColumn_read _ _ _ _ h3 i).trans ?_
    refine (setColumn_read _ _ _ _ h2 i).trans ?_
    exact setColumn_read _ _ _ _ h1 i

theorem categoryStage_read (le : PyVal → Except Unit PyVal) (d d' : Df)
    (h : categoryStage le d = .ok d') (k : String)
    (h1 : k ≠ "category_main_cb") (h2 : k ≠ "category_sub_cb")
    (h3 : k ≠ "category_type_cb") (i : ℕ) :
    (d'.rows[i]?).map (fun r => getCell r k) = (d.rows[i]?).map (fun r => getCell r k) := by
  have h0 : (do
    let d1 ← (if d.cols.contains "category_main_cb" = true then
        setColumnM d "category_main_cb" (fun r => catName le (getCell r "category_main_cb"))
      else pure d)
    let d2 ← (if d1.cols.contains "category_sub_cb" = true then
        setColumnM d1 "category_sub_cb" (fun r => catName le (getCell r "category_sub_cb"))
      else pure d1)
    let d3 ← (if d2.cols.contains "category_type_cb" = true then
        setColumnM d2 "category_type_cb" (fun r => catName le (getCell r "category_type_cb"))
      else pure d2)
    pure d3) = .ok d' := h
  obtain ⟨d1, hs1, hrest⟩ := exceptBind_ok_destruct _ _ _ h0
  obtain ⟨d2, hs2, hrest2⟩ := exceptBind_ok_destruct _ _ _ hrest
  obtain ⟨d3, hs3, hpure⟩ := exceptBind_ok_destruct _ _ _ hrest2
  simp only [pure, Except.pure, Except.ok.injEq] at hpure
  subst hpure
  exact ((condColM_read d2 _ _ d3 hs3 k h3 i).trans
    (condColM_read d1 _ _ d2 hs2 k h2 i)).trans (condColM_read d _ _ d1 hs1 k h1 i)

theorem areaStage_read (d : Df) (k : String) (hk : k ≠ "usable_area") (i : ℕ) :
    ((areaStage d).rows[i]?).map (fun r => getCell r k) =
      (d.rows[i]?).map (fun r => getCell r k) := by
  unfold areaStage
  split_ifs
  · exact setColumn_read _ _ _ _ hk i
  · rfl

theorem floorStage_read (d : Df) (k : String) (hk : k ≠ "floor_num") (i : ℕ) :
    ((floorStage d).rows[i]?).map (fun r => getCell r k) =
      (d.rows[i]?).map (fun r => getCell r k) := by
  unfold floorStage
  split_ifs
  · exact setColumn_read _ _ _ _ hk i
  · rfl

theorem binStage_read (d d' : Df) (h : binStage d = .ok d') (k : String)
    (h1 : k ≠ "terrace") (h2 : k ≠ "elevator") (i : ℕ) :
    (d'.rows[i]?).map (fun r => getCell r k) = (d.rows[i]?).map (fun r => getCell r k) := by
  have h0 : (do
    let d1 ← (if d.cols.contains "terrace" = true then
        setColumnM d "terrace" (fun r => fillIntCell (getCell r "terrace"))
      else pure d)
    let d2 ← (if d1.cols.contains "elevator" = true then
        setColumnM d1 "elevator" (fun r => fillIntCell (getCell r "elevator"))
      else pure d1)
    pure d2) = .ok d' := h
  obtain ⟨d1, hs1, hrest⟩ := exceptBind_ok_destruct _ _ _ h0
  obtain ⟨d2, hs2, hpure⟩ := exceptBind_ok_destruct _ _ _ hrest
  simp only [pure, Except.pure, Except.ok.injEq] at hpure
  subst hpure
  exact (condColM_read d1 _ _ d2 hs2 k h2 i).trans (condColM_read d _ _ d1 hs1 k h1 i)

theorem detailsStage_read (le : PyVal → Except Unit PyVal) (d d' : Df)
    (h : detailsStage le d = .ok d') (k : String)
    (hk : ∀ k' ∈ detailLabels.map Prod.snd, k' ≠ k) (i : ℕ) :
    (d'.rows[i]?).map (fun r => getCell r k) = (d.rows[i]?).map (fun r => getCell r k) := by
  have hcd : d.cols.contains "detail" = true := by
    by_contra hcd
    unfold detailsStage at h
    rw [if_neg hcd] at h
    cases h
  unfold detailsStage at h
  rw [if_pos hcd] at h
  have h0 : (do
    let exs ← mapME (fun r => extract_details le (getCell r "detail")) d.rows
    pure (⟨d.cols ++ detailColsOf exs,
      (d.rows.zip exs).map (fun p : Row × List (String × PyVal) =>
        p.1 ++ (detailColsOf exs).map
          (fun k => (k, (lookupAssoc p.2 k).getD .none)))⟩ : Df)) = .ok d' := h
  obtain ⟨exs, hexs, hpure⟩ := exceptBind_ok_destruct _ _ _ h0
  simp only [pure, Except.pure, Except.ok.injEq] at hpure
  subst hpure
  show (((d.rows.zip exs).map _)[i]?).map _ = _
  rw [List.getElem?_map, getElem?_zip]
  obtain ⟨hlen, _⟩ := mapME_ok_spec _ _ _ hexs
  by_cases hi : i < d.rows.length
  · have hi' : i < exs.length := by omega
    rw [List.getElem?_eq_getElem hi, List.getElem?_eq_getElem hi']
    refine congrArg some ?_
    refine getCell_append_ne _ _ _ ?_
    intro kv hkv
    obtain ⟨k', hk', hkeq⟩ := List.mem_map.mp hkv
    rw [← hkeq]
    exact hk k' (detailColsOf_keys le d.rows exs hexs k' hk')
  · rw [List.getElem?_eq_none (not_lt.mp hi),
      List.getElem?_eq_none (show exs.length ≤ i by omega)]
    rfl

theorem setCell_keys (r : Row) (n : String) (v : PyVal) (kv : String × PyVal)
    (h : kv ∈ setCell r n v) : kv ∈ r ∨ kv.1 = n := by
  unfold setCell at h
  split_ifs at h with hc
  · obtain ⟨kv0, hkv0, heq⟩ := List.mem_map.mp h
    by_cases h0 : kv0.1 = n
    · rw [if_pos h0] at heq
      right
      rw [← heq]
    · rw [if_neg h0] at heq
      left
      rw [← heq]
      exact hkv0
  · rcases List.mem_append.mp h with h' | h'
    · exact Or.inl h'
    · right
      rw [List.mem_singleton.mp h']

theorem poiChainRow_keys : ∀ (cols : List String) (r : Row) (kv : String × PyVal),
    kv ∈ cols.foldl (fun r c' => setCell r (strReplaceAll c' "poi_" "500m_")
      (cellFlagLe 500 (getCell r c'))) r →
    kv ∈ r ∨ ∃ c' ∈ cols, kv.1 = strReplaceAll c' "poi_" "500m_" := by
  intro cols
  induction cols with
  | nil => intro r kv h; exact Or.inl h
  | cons c0 cols ih =>
    intro r kv h
    rw [List.foldl_cons] at h
    rcases ih _ kv h with h' | ⟨c', hc', he⟩
    · rcases setCell_keys _ _ _ kv h' with h'' | h''
      · exact Or.inl h''
      · exact Or.inr ⟨c0, List.mem_cons_self _ _, h''⟩
    · exact Or.inr ⟨c', List.mem_cons_of_mem _ hc', he⟩

theorem poiStage_rows_eq (d : Df) :
    (poiStage d).rows = d.rows.map (fun r =>
      ((d.cols.filter (fun c => strStarts c "poi_")).foldl
        (fun r c' => setCell r (strReplaceAll c' "poi_" "500m_")
          (cellFlagLe 500 (getCell r c'))) r).filter
        (fun kv => !(d.cols.filter (fun c => strStarts c "poi_")).contains kv.1)) := by
  have hrows := foldSetColumn_rows (d.cols.filter fun c => strStarts c "poi_") d
    (fun c => strReplaceAll c "poi_" "500m_") (fun c r => cellFlagLe 500 (getCell r c))
  show ((d.cols.filter (fun c => strStarts c "poi_")).foldl
      (fun dd c => setColumn dd (strReplaceAll c "poi_" "500m_")
        (fun r => cellFlagLe 500 (getCell r c))) d).rows.map _ = _
  rw [hrows, List.map_map]
  rfl

theorem poiStage_read (d : Df) (k : String) (hk1 : strStarts k "poi_" = false)
    (hk2 : k.data.head? ≠ some '5') (i : ℕ) :
    ((poiStage d).rows[i]?).map (fun r => getCell r k) =
      (d.rows[i]?).map (fun r => getCell r k) := by
  have hnotin : (d.cols.filter (fun c => strStarts c "poi_")).contains k = false := by
    rw [strContains_false_iff]
    intro hmem
    rw [(List.mem_filter.mp hmem).2] at hk1
    cases hk1
  rw [poiStage_rows_eq]
  refine map_read_eq _ _ (fun r => getCell r k) (fun r => getCell r k) ?_ i
  intro r
  refine Eq.trans (getCell_filterKey _
    (fun k' => !(d.cols.filter fun c => strStarts c "poi_").contains k') k
    (show (!(d.cols.filter fun c => strStarts c "poi_").contains k) = true by
      rw [hnotin]; rfl)) ?_
  exact poiChain_preserve _ _ k
    (fun c' hc' => replPoi_ne_of_head c' k (List.mem_filter.mp hc').2 hk2)

theorem charsHasPre_self_append : ∀ (a b : List Char), charsHasPre a (a ++ b) = true := by
  intro a
  induction a with
  | nil => intro b; rfl
  | cons c a ih =>
    intro b
    show (decide (c = c) && charsHasPre a (a ++ b)) = true
    simp [ih]

theorem dummyName_ne (c v w : String) (hne : charsHasPre c.data w.data = false) :
    c ++ "_" ++ v ≠ w := by
  intro he
  have hd : w.data = c.data ++ ('_' :: v.data) := by
    rw [← he, String.data_append, String.data_append, List.append_assoc]
    rfl
  rw [hd, charsHasPre_self_append] at hne
  cases hne

theorem dummyRowFn_read (c : String) (cats : List String) (r : Row) (k : String)
    (hk1 : k ≠ c) (hk2 : ∀ v, c ++ "_" ++ v ≠ k) :
    getCell (dummyRowFn c cats r) k = getCell r k := by
  unfold dummyRowFn removeKey
  refine Eq.trans (getCell_append_ne _ _ _ ?_)
    (getCell_filterKey r (fun k' => decide (k' ≠ c)) k (by simp [hk1]))
  intro kv hkv
  obtain ⟨v, _, heq⟩ := List.mem_map.mp hkv
  rw [← heq]
  exact hk2 v

theorem dummyFold_read : ∀ (g : List (String × List String)) (r : Row) (k : String),
    (∀ p ∈ g, p.1 ≠ k ∧ ∀ v, p.1 ++ "_" ++ v ≠ k) →
    getCell (g.foldl (fun r p => dummyRowFn p.1 p.2 r) r) k = getCell r k := by
  intro g
  induction g with
  | nil => intro r k _; rfl
  | cons p g ih =>
    intro r k hp
    rw [List.foldl_cons, ih _ _ (fun p' h' => hp p' (List.mem_cons_of_mem _ h'))]
    exact dummyRowFn_read p.1 p.2 r k (Ne.symm ((hp p (List.mem_cons_self _ _)).1))
      (hp p (List.mem_cons_self _ _)).2

theorem dummyFold_keys : ∀ (g : List (String × List String)) (r : Row)
    (kv : String × PyVal), kv ∈ g.foldl (fun r p => dummyRowFn p.1 p.2 r) r →
    kv ∈ r ∨ ∃ p ∈ g, ∃ v, kv.1 = p.1 ++ "_" ++ v := by
  intro g
  induction g with
  | nil => intro r kv h; exact Or.inl h
  | cons p g ih =>
    intro r kv h
    rw [List.foldl_cons] at h
    rcases ih _ kv h with h' | ⟨p', hp', v, he⟩
    · unfold dummyRowFn removeKey at h'
      rcases List.mem_append.mp h' with h'' | h''
      · exact Or.inl (List.mem_of_mem_filter h'')
      · obtain ⟨v, _, heq⟩ := List.mem_map.mp h''
        right
        exact ⟨p, List.mem_cons_self _ _, v, by rw [← heq]⟩
    · exact Or.inr ⟨p', List.mem_cons_of_mem _ hp', v, he⟩

theorem getDummies_read (d : Df) (catcols : List String) (k : String)
    (hk1 : ∀ c ∈ catcols, c ≠ k) (hk2 : ∀ c ∈ catcols, ∀ v, c ++ "_" ++ v ≠ k) (i : ℕ) :
    ((getDummies d catcols).rows[i]?).map (fun r => getCell r k) =
      (d.rows[i]?).map (fun r => getCell r k) := by
  show ((d.rows.map _)[i]?).map _ = _
  refine map_read_eq _ _ (fun r => getCell r k) (fun r => getCell r k) ?_ i
  intro r
  refine dummyFold_read _ r k ?_
  intro p hp
  obtain ⟨c, hc, heq⟩ := List.mem_map.mp hp
  constructor
  · rw [← heq]
    exact hk1 c hc
  · intro v
    rw [← heq]
    exact hk2 c hc v

theorem renameCol_eq_price_iff (c : String) (hc : c ≠ "price") :
    (renameCol c = "price") ↔ c = "price_czk" := by
  unfold renameCol
  split_ifs with h1 h2 h3 h4 h5 h6 h7
  · exact iff_of_true rfl h1
  · exact iff_of_false (by decide) h1
  · exact iff_of_false (by decide) h1
  · exact iff_of_false (by decide) h1
  · exact iff_of_false (by decide) h1
  · exact iff_of_false (by decide) h1
  · exact iff_of_false (by decide) h1
  · exact iff_of_false hc h1

theorem lookupAssoc_rename_price : ∀ (r : Row), (∀ kv ∈ r, kv.1 ≠ "price") →
    lookupAssoc (r.map (fun kv => (renameCol kv.1, kv.2))) "price" =
      lookupAssoc r "price_czk" := by
  intro r
  induction r with
  | nil => intro _; rfl
  | cons kv r ih =>
    intro hr
    rw [List.map_cons, lookupAssoc_cons, lookupAssoc_cons]
    have hkv : kv.1 ≠ "price" := hr kv (List.mem_cons_self _ _)
    by_cases hk : kv.1 = "price_czk"
    · rw [if_pos ((renameCol_eq_price_iff kv.1 hkv).mpr hk), if_pos hk]
    · rw [if_neg (fun he => hk ((renameCol_eq_price_iff kv.1 hkv).mp he)), if_neg hk]
      exact ih (fun kv' h' => hr kv' (List.mem_cons_of_mem _ h'))

theorem renameStage_read_price (d : Df) (hP : ∀ r ∈ d.rows, ∀ kv ∈ r, kv.1 ≠ "price")
    (i : ℕ) :
    ((renameStage d).rows[i]?).map (fun r => getCell r "price") =
      (d.rows[i]?).map (fun r => getCell r "price_czk") := by
  show ((d.rows.map _)[i]?).map _ = _
  rw [List.getElem?_map]
  cases hr : d.rows[i]? with
  | none => rfl
  | some r =>
    refine congrArg some ?_
    show getCell (r.map (fun kv => (renameCol kv.1, kv.2))) "price" = getCell r "price_czk"
    unfold getCell
    have hmem : r ∈ d.rows := by
      obtain ⟨hlt, he⟩ := List.getElem?_eq_some.mp hr
      exact he ▸ List.getElem_mem hlt
    rw [lookupAssoc_rename_price r (hP r hmem)]

theorem metroAssignRow_read_other (metro : List Station) (r : Row) (k : String)
    (h1 : k ≠ "metro_dist_A") (h2 : k ≠ "metro_dist_B") (h3 : k ≠ "metro_dist_C")
    (h4 : k ≠ "nearest_station") :
    getCell (metroAssignRow metro r) k = getCell r k := by
  unfold metroAssignRow
  rw [getCell_setCell_ne _ _ _ _ h4, getCell_setCell_ne _ _ _ _ h3,
    getCell_setCell_ne _ _ _ _ h2, getCell_setCell_ne _ _ _ _ h1]

theorem metroStage_read (metro : List Station) (d : Df) (k : String)
    (h1 : k ≠ "metro_dist_A") (h2 : k ≠ "metro_dist_B") (h3 : k ≠ "metro_dist_C")
    (h4 : k ≠ "nearest_station") (i : ℕ) :
    ((metroStage metro d).rows[i]?).map (fun r => getCell r k) =
      (d.rows[i]?).map (fun r => getCell r k) := by
  show ((d.rows.map _)[i]?).map _ = _
  exact map_read_eq (metroAssignRow metro) d.rows (fun r => getCell r k)
    (fun r => getCell r k)
    (fun r => metroAssignRow_read_other metro r k h1 h2 h3 h4) i

theorem metroFlagStage_read (d : Df) (k : String) (h1 : k ≠ "1000m_dist_A")
    (h2 : k ≠ "1000m_dist_B") (h3 : k ≠ "1000m_dist_C") (i : ℕ) :
    ((metroFlagStage d).rows[i]?).map (fun r => getCell r k) =
      (d.rows[i]?).map (fun r => getCell r k) := by
  simp only [metroFlagStage, List.foldl_cons, List.foldl_nil]
  refine (metroFlagStep_other _ "C" _ h3 i).trans ?_
  refine (metroFlagStep_other _ "B" _ h2 i).trans ?_
  exact metroFlagStep_other d "A" _ h1 i

theorem dropColumns_rows_key (d : Df) (cs : List String) (k : String)
    (hk : cs.contains k = true) :
    ∀ r ∈ (dropColumns d cs).rows, ∀ kv ∈ r, kv.1 ≠ k := by
  intro r hr kv hkv
  obtain ⟨r0, _, heq⟩ := List.mem_map.mp hr
  rw [← heq] at hkv
  have hq := List.of_mem_filter hkv
  intro he
  rw [he, hk] at hq
  cases hq

theorem poiStage_rows_keyP (d : Df)
    (hd : ∀ r ∈ d.rows, ∀ kv ∈ r, kv.1 ≠ "price") :
    ∀ r ∈ (poiStage d).rows, ∀ kv ∈ r, kv.1 ≠ "price" := by
  intro r hr kv hkv
  rw [poiStage_rows_eq] at hr
  obtain ⟨r0, hr0, heq⟩ := List.mem_map.mp hr
  rw [← heq] at hkv
  have hkv' := List.mem_of_mem_filter hkv
  rcases poiChainRow_keys _ r0 kv hkv' with h' | ⟨c', hc', he⟩
  · exact hd r0 hr0 kv h'
  · rw [he]
    exact replPoi_ne_of_head c' "price" (List.mem_filter.mp hc').2 (by decide)

theorem getDummies_rows_keyP (d : Df) (catcols : List String)
    (hd : ∀ r ∈ d.rows, ∀ kv ∈ r, kv.1 ≠ "price")
    (hcat : ∀ c ∈ catcols, ∀ v, c ++ "_" ++ v ≠ "price") :
    ∀ r ∈ (getDummies d catcols).rows, ∀ kv ∈ r, kv.1 ≠ "price" := by
  intro r hr kv hkv
  obtain ⟨r0, hr0, heq⟩ := List.mem_map.mp hr
  rw [← heq] at hkv
  rcases dummyFold_keys _ r0 kv hkv with h' | ⟨p, hp, v, he⟩
  · exact hd r0 hr0 kv h'
  · rw [he]
    obtain ⟨c, hc, hpeq⟩ := List.mem_map.mp hp
    have h1 : p.1 = c := by rw [← hpeq]
    rw [h1]
    exact hcat c hc v

theorem filterPrice_drop_read (df0 : Df) (i : ℕ) :
    ((filterPrice (dropColumns df0 colsToDrop)).rows[i]?).map
        (fun r => getCell r "price_czk") =
      ((df0.rows.filter (fun r => !cellNA (getCell r "price_czk")))[i]?).map
        (fun r => getCell r "price_czk") := by
  have hcell : ∀ r : Row,
      getCell (r.filter (fun kv => !colsToDrop.contains kv.1)) "price_czk" =
        getCell r "price_czk" := fun r =>
    getCell_filterKey r (fun k' => !colsToDrop.contains k') "price_czk" (by decide)
  show (((df0.rows.map (fun r => r.filter (fun kv => !colsToDrop.contains kv.1))).filter
      (fun r => !cellNA (getCell r "price_czk")))[i]?).map (fun r => getCell r "price_czk") = _
  rw [List.filter_map]
  have hpred : df0.rows.filter ((fun r => !cellNA (getCell r "price_czk")) ∘
        (fun r => r.filter (fun kv => !colsToDrop.contains kv.1))) =
      df0.rows.filter (fun r => !cellNA (getCell r "price_czk")) := by
    refine List.filter_congr ?_
    intro r _
    show (!cellNA (getCell (r.filter (fun kv => !colsToDrop.contains kv.1)) "price_czk")) =
      (!cellNA (getCell r "price_czk"))
    rw [hcell r]
  rw [hpred]
  exact map_read_eq (fun r => r.filter (fun kv => !colsToDrop.contains kv.1)) _
    (fun r => getCell r "price_czk") (fun r => getCell r "price_czk") hcell i

/-- C3: on a successful run with the raw file loaded, `process_raw_data`
keeps exactly the raw rows whose `price_czk` cell is non-missing (the filter
acting before any enrichment), every surviving raw row corresponds in order
to exactly one output row — the output row count equals the kept count and
the i-th output row's `price` cell is the i-th kept raw row's `price_czk`
cell — and the fixed column renaming is applied: `price_czk`→`price`,
`lat`→`latitude`, `lon`→`longitude`, `usable_area`→`area_usable`,
`terrace`→`has_terrace`, `elevator`→`has_elevator`,
`floor_num`→`floor_number`, every other label unchanged. -/
theorem C3_row_correspondence (raw_data_path metro_path : String)
    (output_path : Option String) (fsRaw : String → Option Df)
    (fsMetro : String → Option (List Station)) (le : PyVal → Except Unit PyVal)
    (df0 : Df) (dfF : Df) (ws : List (String × Df))
    (h0 : fsRaw raw_data_path = some df0)
    (hok : process_raw_data raw_data_path metro_path output_path fsRaw fsMetro le =
      .ok (dfF, ws)) :
    (dfF.rows.length =
        (df0.rows.filter (fun r => !cellNA (getCell r "price_czk"))).length ∧
      ∀ i : ℕ, (dfF.rows[i]?).map (fun r => getCell r "price") =
        ((df0.rows.filter (fun r => !cellNA (getCell r "price_czk")))[i]?).map
          (fun r => getCell r "price_czk")) ∧
    renameCol "price_czk" = "price" ∧ renameCol "lat" = "latitude" ∧
    renameCol "lon" = "longitude" ∧ renameCol "usable_area" = "area_usable" ∧
    renameCol "terrace" = "has_terrace" ∧ renameCol "elevator" = "has_elevator" ∧
    renameCol "floor_num" = "floor_number" ∧
    ∀ c : String, c ∉ ["price_czk", "lat", "lon", "usable_area", "terrace",
      "elevator", "floor_num"] → renameCol c = c := by
  have hother : ∀ c : String, c ∉ ["price_czk", "lat", "lon", "usable_area", "terrace",
      "elevator", "floor_num"] → renameCol c = c := by
    intro c hcn
    unfold renameCol
    split_ifs with g1 g2 g3 g4 g5 g6 g7
    · exact absurd (by rw [g1]; decide) hcn
    · exact absurd (by rw [g2]; decide) hcn
    · exact absurd (by rw [g3]; decide) hcn
    · exact absurd (by rw [g4]; decide) hcn
    · exact absurd (by rw [g5]; decide) hcn
    · exact absurd (by rw [g6]; decide) hcn
    · exact absurd (by rw [g7]; decide) hcn
    · rfl
  unfold process_raw_data at hok
  rw [h0] at hok
  cases hm : fsMetro metro_path with
  | none =>
    rw [hm] at hok
    exact absurd (show (Except.error (PErr.fileNotFound metro_path) :
        Except PErr (Df × List (String × Df))) = Except.ok (dfF, ws) from hok) (by simp)
  | some metro =>
    rw [hm] at hok
    have hok2 : (if df0.cols.contains "price_czk" = true then
        match pipelineBody le metro df0 with
        | Except.ok dfX => Except.ok (dfX, (output_path.map (fun p => (p, dfX))).toList)
        | Except.error _ => Except.error PErr.typeError
      else Except.error (PErr.missingColumn "price_czk")) = Except.ok (dfF, ws) := hok
    by_cases hc : df0.cols.contains "price_czk" = true
    · rw [if_pos hc] at hok2
      cases hpb : pipelineBody le metro df0 with
      | error e =>
        rw [hpb] at hok2
        exact absurd (show (Except.error PErr.typeError :
            Except PErr (Df × List (String × Df))) = Except.ok (dfF, ws) from hok2) (by simp)
      | ok dfX =>
        rw [hpb] at hok2
        have hok3 : (Except.ok (dfX, (output_path.map (fun p => (p, dfX))).toList) :
            Except PErr (Df × List (String × Df))) = Except.ok (dfF, ws) := hok2
        injection hok3 with hok4
        have hdf : dfX = dfF := congrArg Prod.fst hok4
        subst hdf
        have hP : (localityStage le (filterPrice (dropColumns df0 colsToDrop)) >>= fun d3 =>
            categoryStage le d3 >>= fun d4 =>
            detailsStage le d4 >>= fun d5 =>
            binStage (floorStage (areaStage d5)) >>= fun d8 =>
            (pure (getDummies (metroFlagStage (metroStage metro (renameStage (getDummies
              (poiStage (dropColumns d8 colsIntermediate))
              (categoricalCols.filter (fun c =>
                (poiStage (dropColumns d8 colsIntermediate)).cols.contains c))))))
              ["nearest_station"]) : Except Unit Df)) = Except.ok dfX := hpb
        obtain ⟨df3, hc3, hP1⟩ := exceptBind_ok_destruct _ _ _ hP
        have hP1' : (categoryStage le df3 >>= fun d4 =>
            detailsStage le d4 >>= fun d5 =>
            binStage (floorStage (areaStage d5)) >>= fun d8 =>
            (pure (getDummies (metroFlagStage (metroStage metro (renameStage (getDummies
              (poiStage (dropColumns d8 colsIntermediate))
              (categoricalCols.filter (fun c =>
                (poiStage (dropColumns d8 colsIntermediate)).cols.contains c))))))
              ["nearest_station"]) : Except Unit Df)) = Except.ok dfX := hP1
        obtain ⟨df4, hc4, hP2⟩ := exceptBind_ok_destruct _ _ _ hP1'
        have hP2' : (detailsStage le df4 >>= fun d5 =>
            binStage (floorStage (areaStage d5)) >>= fun d8 =>
            (pure (getDummies (metroFlagStage (metroStage metro (renameStage (getDummies
              (poiStage (dropColumns d8 colsIntermediate))
              (categoricalCols.filter (fun c =>
                (poiStage (dropColumns d8 colsIntermediate)).cols.contains c))))))
              ["nearest_station"]) : Except Unit Df)) = Except.ok dfX := hP2
        obtain ⟨df5, hc5, hP3⟩ := exceptBind_ok_destruct _ _ _ hP2'
        have hP3' : (binStage (floorStage (areaStage df5)) >>= fun d8 =>
            (pure (getDummies (metroFlagStage (metroStage metro (renameStage (getDummies
              (poiStage (dropColumns d8 colsIntermediate))
              (categoricalCols.filter (fun c =>
                (poiStage (dropColumns d8 colsIntermediate)).cols.contains c))))))
              ["nearest_station"]) : Except Unit Df)) = Except.ok dfX := hP3
        obtain ⟨df8, hc8, hP4⟩ := exceptBind_ok_destruct _ _ _ hP3'
        have hP4' : (Except.ok (getDummies (metroFlagStage (metroStage metro
            (renameStage (getDummies
              (poiStage (dropColumns df8 colsIntermediate))
              (categoricalCols.filter (fun c =>
                (poiStage (dropColumns df8 colsIntermediate)).cols.contains c))))))
              ["nearest_station"]) : Except Unit Df) = Except.ok dfX := hP4
        injection hP4' with hP5
        have hfinal : dfX = getDummies (metroFlagStage (metroStage metro
            (renameStage (getDummies
              (poiStage (dropColumns df8 colsIntermediate))
              (categoricalCols.filter (fun c =>
                (poiStage (dropColumns df8 colsIntermediate)).cols.contains c))))))
              ["nearest_station"] := hP5.symm
        have hall1 : ∀ c ∈ categoricalCols, c ≠ "price_czk" := by decide
        have hall2 : ∀ c ∈ categoricalCols, charsHasPre c.data "price_czk".data = false := by
          decide
        have hall3 : ∀ c ∈ categoricalCols, charsHasPre c.data "price".data = false := by
          decide
        have hk1c : ∀ c ∈ categoricalCols.filter (fun c =>
            (poiStage (dropColumns df8 colsIntermediate)).cols.contains c),
            c ≠ "price_czk" :=
          fun c hcm => hall1 c (List.mem_filter.mp hcm).1
        have hk2c : ∀ c ∈ categoricalCols.filter (fun c =>
            (poiStage (dropColumns df8 colsIntermediate)).cols.contains c),
            ∀ v, c ++ "_" ++ v ≠ "price_czk" :=
          fun c hcm v => dummyName_ne c v "price_czk" (hall2 c (List.mem_filter.mp hcm).1)
        have hN9 : ∀ r ∈ (dropColumns df8 colsIntermediate).rows, ∀ kv ∈ r,
            kv.1 ≠ "price" :=
          dropColumns_rows_key df8 colsIntermediate "price" (by decide)
        have hN10 : ∀ r ∈ (poiStage (dropColumns df8 colsIntermediate)).rows, ∀ kv ∈ r,
            kv.1 ≠ "price" := poiStage_rows_keyP _ hN9
        have hN11 : ∀ r ∈ (getDummies (poiStage (dropColumns df8 colsIntermediate))
            (categoricalCols.filter (fun c =>
              (poiStage (dropColumns df8 colsIntermediate)).cols.contains c))).rows,
            ∀ kv ∈ r, kv.1 ≠ "price" :=
          getDummies_rows_keyP _ _ hN10
            (fun c hcm v => dummyName_ne c v "price" (hall3 c (List.mem_filter.mp hcm).1))
        have hIdx : ∀ i : ℕ, (dfX.rows[i]?).map (fun r => getCell r "price") =
            ((df0.rows.filter (fun r => !cellNA (getCell r "price_czk")))[i]?).map
              (fun r => getCell r "price_czk") := by
          intro i
          rw [hfinal]
          refine (getDummies_read _ ["nearest_station"] "price" (by decide)
            (fun c hcm v => by
              have hce : c = "nearest_station" := List.mem_singleton.mp hcm
              rw [hce]
              exact dummyName_ne _ v _ (by decide)) i).trans ?_
          refine (metroFlagStage_read _ "price" (by decide) (by decide) (by decide) i).trans ?_
          refine (metroStage_read metro _ "price" (by decide) (by decide) (by decide)
            (by decide) i).trans ?_
          refine (renameStage_read_price _ hN11 i).trans ?_
          refine (getDummies_read _ _ "price_czk" hk1c hk2c i).trans ?_
          refine (poiStage_read _ "price_czk" (by decide) (by decide) i).trans ?_
          refine (dropColumns_read df8 colsIntermediate "price_czk" (by decide) i).trans ?_
          refine (binStage_read _ df8 hc8 "price_czk" (by decide) (by decide) i).trans ?_
          refine (floorStage_read _ "price_czk" (by decide) i).trans ?_
          refine (areaStage_read df5 "price_czk" (by decide) i).trans ?_
          refine (detailsStage_read le df4 df5 hc5 "price_czk" (by decide) i).trans ?_
          refine (categoryStage_read le df3 df4 hc4 "price_czk" (by decide) (by decide)
            (by decide) i).trans ?_
          refine (localityStage_read le _ df3 hc3 "price_czk" (by decide) (by decide)
            (by decide) (by decide) (by decide) i).trans ?_
          exact filterPrice_drop_read df0 i
        exact ⟨⟨length_eq_of_map_getElem? dfX.rows _
            (fun r => getCell r "price") (fun r => getCell r "price_czk") hIdx, hIdx⟩,
          by decide, by decide, by decide, by decide, by decide, by decide, by decide,
          hother⟩
    · rw [if_neg hc] at hok2
      exact absurd hok2 (by simp)

/-- C3 witness: a 3-row table with one missing price runs to completion,
produces exactly 2 rows, and the output row count is the kept-row count. -/
theorem C3_row_correspondence_witness :
    process_raw_data "raw.csv" "metro.csv" Option.none (fun _ => some C3df0)
        (fun _ => some []) (fun _ => Except.error ()) = .ok (C3dfF, []) ∧
    C3dfF.rows.length = 2 ∧
    (C3df0.rows.filter (fun r => !cellNA (getCell r "price_czk"))).length = 2 ∧
    C3dfF.rows.length =
      (C3df0.rows.filter (fun r => !cellNA (getCell r "price_czk"))).length := by
  have hok : process_raw_data "raw.csv" "metro.csv" Option.none (fun _ => some C3df0)
      (fun _ => some []) (fun _ => Except.error ()) = .ok (C3dfF, []) := rfl
  have h := C3_row_correspondence "raw.csv" "metro.csv" Option.none (fun _ => some C3df0)
    (fun _ => some []) (fun _ => Except.error ()) C3df0 C3dfF [] rfl hok
  exact ⟨hok, rfl, rfl, h.1.1⟩
